import Mathlib

/-!
Shallow embedding of the firewall-analyzer validation engine and emitter.

Conventions of the embedding:
* Instants are whole seconds as Int (chrono DateTime comparisons restricted
  to the whole-second inputs the claims use); durations are stored as their
  num_seconds value.
* A request timestamp is Option Int: some t is a parsed RFC-3339 instant,
  none models a string DateTime::from_str rejects.
* Compiled regexes are modeled as String to Bool predicates.
* u64 counters are Nat; the i64-to-u32 cast (Rust as) is castU32.
* The snapshot mixes revisions of the per-detector state modules; each
  validator.rs is embedded against the state-method variant its call sites
  type-check with (noted per definition).
-/

namespace Firewall

/-- Outcome of one validator call: ok is a normal verdict, err models the
anyhow error return, crash models a Rust process abort (reachable through
Option unwrap on the empty iterator of a zero-capacity ring). -/
inductive VResult (α : Type) where
  | ok (a : α)
  | err (msg : String)
  | crash
deriving DecidableEq, Repr

/-- Ban target from src/src/model: ip and/or user_agent. -/
structure BanTarget where
  ip : Option String
  user_agent : Option String
deriving DecidableEq, Repr

/-- Ban directive emitted to the executor; ttl is a u32 seconds count. -/
structure BanRequest where
  target : BanTarget
  reason : String
  ttl : Nat
deriving DecidableEq, Repr

/-- One tier of a detector cascade (src/src/validators/common.rs BanRule);
durations are kept as their whole-second counts. -/
structure BanRule where
  limit : Nat
  banSec : Int
  resetSec : Int
deriving DecidableEq, Repr

/-- Rust cast i64 as u32: two-complement truncation to the low 32 bits,
which is the Euclidean remainder modulo 2^32. -/
def castU32 (x : Int) : Nat := (x % (2 ^ 32 : Int)).toNat

/-- Ingress request (src/src/model/request.rs, union of the snapshot's
revisions of the struct); body Skipped is modeled as the empty string. -/
structure Request where
  timestamp : Option Int
  remote_ip : String
  method : String
  path : String
  headers : List (String × String)
  body : String
deriving Repr

/-- Fixed-capacity ring of timestamps (the circular_queue crate as used by
the counter detectors): data is oldest-first, push evicts the oldest entry
when full and is a no-op at capacity zero. -/
structure CQueue where
  capacity : Nat
  data : List Int
deriving DecidableEq, Repr

def CQueue.push (q : CQueue) (t : Int) : CQueue :=
  if q.capacity = 0 then q
  else if q.capacity ≤ q.data.length then { q with data := q.data.drop 1 ++ [t] }
  else { q with data := q.data ++ [t] }

def CQueue.isFull (q : CQueue) : Bool := q.data.length == q.capacity

/-- The value of iter().last() on the ring: the crate iterates newest to
oldest, so the iterator's last element is the oldest entry. -/
def CQueue.oldest? (q : CQueue) : Option Int := q.data.head?

def CQueue.clear (q : CQueue) : CQueue := { q with data := [] }

/-- ASCII lowercasing of one character (the fold eq_ignore_ascii_case
performs per byte). -/
def lowerChar (c : Char) : Char :=
  if c.toNat ≥ 65 ∧ c.toNat ≤ 90 then Char.ofNat (c.toNat + 32) else c

/-- Case-insensitive string comparison (eq_ignore_ascii_case on the
header names the detectors look up). -/
def eqIgnoreCase (a b : String) : Bool := a.data.map lowerChar == b.data.map lowerChar

/-- First-match lookup in a HashMap modeled as an association list. -/
def lookupState {σ : Type} : List (String × σ) → String → Option σ
  | [], _ => none
  | (k2, v) :: rest, k => if k2 = k then some v else lookupState rest k

/-- HashMap entry(k).or_insert_with(fresh): unchanged when the key is
present, otherwise extended with a fresh entry. -/
def ensureState {σ : Type} (m : List (String × σ)) (k : String) (fresh : σ) :
    List (String × σ) :=
  match lookupState m k with
  | some _ => m
  | none => m ++ [(k, fresh)]

/-- Write-back of the mutated per-target state into the map. -/
def setState {σ : Type} (m : List (String × σ)) (k : String) (v : σ) :
    List (String × σ) :=
  m.map (fun p => if p.1 = k then (k, v) else p)

/-! The RequestsFromIPCounter detector
(src/src/validators/requests_from_ip_counter/validator.rs). -/

/-- Per-target state of the ip-counter detector
(src/src/validators/requests_from_ip_counter/state.rs). -/
structure CounterState where
  requests_since_last_ban : Nat
  applied_rule_idx : Option Nat
  recent_requests : CQueue
  resets_at : Int
deriving DecidableEq, Repr

/-- State::new(rule0.limit): unbanned, empty ring of capacity rule0.limit,
resets_at at the epoch. -/
def freshCounterState (limit : Nat) : CounterState :=
  { requests_since_last_ban := 0
    applied_rule_idx := none
    recent_requests := { capacity := limit, data := [] }
    resets_at := 0 }

/-- BanRequest the ip detectors build: target carries only the ip. -/
def mkIpBan (descr : String) (ttl : Nat) (ip : String) : BanRequest :=
  { target := { ip := some ip, user_agent := none }, reason := descr, ttl := ttl }

/-- Per-target body of RequestsFromIPCounter::validate (validator.rs lines
59 to 108) after rule 0 lookup, state-entry creation and timestamp parsing.
The should_reset_timeout call resolves to the by-request-time variant the
call site passes request_time to; reset clears applied_rule_idx and the
caller pushes the request time. The rules.len() - 1 clamp and the
apply_rule_if_possible helper (lines 116 to 130, which stores
rule_idx + 1) are inlined. -/
def counterStep (rules : List BanRule) (rule0 : BanRule) (descr ip : String)
    (st : CounterState) (t : Int) : VResult (Option BanRequest) × CounterState :=
  match st.applied_rule_idx with
  | none =>
    let q := st.recent_requests.push t
    let st1 := { st with recent_requests := q }
    if ¬ q.isFull then (.ok none, st1)
    else
      match q.oldest? with
      | none => (.crash, st1)
      | some oldest =>
        if oldest ≤ t - rule0.resetSec then (.ok none, st1)
        else
          let st2 := { st1 with
            resets_at := t + rule0.resetSec
            recent_requests := q.clear
            requests_since_last_ban := 0
            applied_rule_idx := some 0 }
          (.ok (some (mkIpBan descr (castU32 rule0.banSec) ip)), st2)
  | some prev =>
    if st.resets_at ≤ t then
      let st1 := { st with
        applied_rule_idx := none
        recent_requests := st.recent_requests.push t }
      (.ok none, st1)
    else
      let st1 := { st with requests_since_last_ban := st.requests_since_last_ban + 1 }
      let ruleIdx := min (prev + 1) (rules.length - 1)
      match rules.get? ruleIdx with
      | none => (.err "rule not found", st1)
      | some rule =>
        if rule.limit ≤ st1.requests_since_last_ban then
          let st2 := { st1 with
            resets_at := t + rule.resetSec
            requests_since_last_ban := 0
            applied_rule_idx := some (ruleIdx + 1) }
          (.ok (some (mkIpBan descr (castU32 rule.banSec) ip)), st2)
        else (.ok none, st1)

/-- The ip-counter detector: configuration plus the per-ip state map. -/
structure IpCounterDetector where
  ban_description : String
  rules : List BanRule
  ip_ban_states : List (String × CounterState)

/-- RequestsFromIPCounter::validate (validator.rs lines 49 to 109): rule 0
lookup errs on an empty rule list before any state is touched; the state
entry is created before the timestamp parse, so a parse failure leaves a
fresh entry behind; then the per-target step runs and its state is written
back. -/
def ipCounterValidate (d : IpCounterDetector) (req : Request) :
    VResult (Option BanRequest) × IpCounterDetector :=
  match d.rules.get? 0 with
  | none => (.err "rule 0 not found", d)
  | some rule0 =>
    let ip := req.remote_ip
    let fresh := freshCounterState rule0.limit
    let states1 := ensureState d.ip_ban_states ip fresh
    match req.timestamp with
    | none => (.err "timestamp parse error", { d with ip_ban_states := states1 })
    | some t =>
      let st0 := (lookupState states1 ip).getD fresh
      let (res, st1) := counterStep d.rules rule0 d.ban_description ip st0 t
      (res, { d with ip_ban_states := setState states1 ip st1 })

/-- Feeding a request sequence through the detector, collecting verdicts. -/
def runIpCounter (d : IpCounterDetector) :
    List Request → List (VResult (Option BanRequest)) × IpCounterDetector
  | [] => ([], d)
  | r :: rest =>
    let (res, d1) := ipCounterValidate d r
    let (out, d2) := runIpCounter d1 rest
    (res :: out, d2)

/-- The three-tier rule list the repository's tests and the scenarios of
the spec use: limit 3 (ban 1s, reset 2s), limit 2 (ban 3s, reset 6s),
limit 1 (ban 4s, reset 8s). -/
def defaultRules : List BanRule :=
  [{ limit := 3, banSec := 1, resetSec := 2 },
   { limit := 2, banSec := 3, resetSec := 6 },
   { limit := 1, banSec := 4, resetSec := 8 }]

/-- Request from an ip at a parsed timestamp t. -/
def ipReq (ip : String) (t : Int) : Request :=
  { timestamp := some t, remote_ip := ip, method := "", path := ""
    headers := [], body := "" }

/-- Fresh ip-counter detector over the default three-tier rules. -/
def defaultIpCounter : IpCounterDetector :=
  { ban_description := "", rules := defaultRules, ip_ban_states := [] }

/-- Compact ip-counter state over the default capacity-3 ring. -/
def cSt (rsl : Nat) (idx : Option Nat) (data : List Int) (rAt : Int) : CounterState :=
  { requests_since_last_ban := rsl, applied_rule_idx := idx
    recent_requests := { capacity := 3, data := data }, resets_at := rAt }

/-- Default ip-counter detector holding one tracked target 1.1.1.1. -/
def dOf (st : CounterState) : IpCounterDetector :=
  { ban_description := "", rules := defaultRules, ip_ban_states := [("1.1.1.1", st)] }

/-! The RequestsFromUACounter detector
(src/src/validators/requests_from_ua_counter/validator.rs). -/

/-- Per-target state of the ua-counter detector
(src/src/validators/requests_from_ua_counter/state.rs); applied_rule packs
AppliedRule as (rule_idx, resets_at). -/
structure UAState where
  requests_since_last_ban : Nat
  applied_rule : Option (Nat × Int)
  recent_requests : CQueue
deriving DecidableEq, Repr

/-- State::new(rule0.limit) of the ua-counter detector. -/
def freshUAState (limit : Nat) : UAState :=
  { requests_since_last_ban := 0
    applied_rule := none
    recent_requests := { capacity := limit, data := [] } }

/-- State::is_above_limit (ua state.rs lines 38 to 43): false while the
ring is not full, else compares the oldest entry (iter().last().unwrap(),
a crash on a zero-capacity ring) with the cutoff by less-or-equal. -/
def uaIsAboveLimit (q : CQueue) (byTime : Int) : VResult Bool :=
  if ¬ q.isFull then .ok false
  else
    match q.oldest? with
    | none => .crash
    | some oldest => .ok (oldest ≤ byTime)

/-- BanRequest the ua detector builds: target carries only the user agent. -/
def mkUABan (descr : String) (ttl : Nat) (ua : String) : BanRequest :=
  { target := { ip := none, user_agent := some ua }, reason := descr, ttl := ttl }

/-- The ua-counter detector: patterns are compiled regexes modeled as
predicates. -/
structure UADetector where
  ban_description : String
  rules : List BanRule
  patterns : List (String → Bool)
  ua_ban_states : List (String × UAState)

/-- Per-target body of RequestsFromUACounter::validate (validator.rs lines
81 to 134) after header lookup, gate, rule 0 lookup, state creation and
timestamp parsing. The reset branch clears applied_rule and pushes the
request time once (the net effect the validator call site and the state
module agree on); the unbanned ban branch neither clears the ring nor the
accumulator, and a tier transition stores the clamped index itself and
does not clear the accumulator. -/
def uaStep (rules : List BanRule) (rule0 : BanRule) (descr ua : String)
    (st : UAState) (t : Int) : VResult (Option BanRequest) × UAState :=
  if (match st.applied_rule with
      | none => false
      | some ar => decide (ar.2 ≤ t)) then
    let st1 := { st with
      applied_rule := none
      recent_requests := st.recent_requests.push t }
    (.ok none, st1)
  else
    match st.applied_rule with
    | none =>
      let st1 := { st with recent_requests := st.recent_requests.push t }
      match uaIsAboveLimit st1.recent_requests (t - rule0.resetSec) with
      | .crash => (.crash, st1)
      | .err m => (.err m, st1)
      | .ok false => (.ok none, st1)
      | .ok true =>
        let st2 := { st1 with applied_rule := some (0, t + rule0.resetSec) }
        (.ok (some (mkUABan descr (castU32 rule0.banSec) ua)), st2)
    | some ar =>
      let st1 := { st with requests_since_last_ban := st.requests_since_last_ban + 1 }
      let applyingIdx := min (ar.1 + 1) (rules.length - 1)
      match rules.get? applyingIdx with
      | none => (.err "rule not found", st1)
      | some rule =>
        if rule.limit ≤ st1.requests_since_last_ban then
          let st2 := { st1 with applied_rule := some (applyingIdx, t + rule.resetSec) }
          (.ok (some (mkUABan descr (castU32 rule.banSec) ua)), st2)
        else (.ok none, st1)

/-- RequestsFromUACounter::validate (validator.rs lines 57 to 135): find
the User-Agent header case-insensitively (err when absent), gate on the
pattern fold, look up rule 0, create the state entry, parse the timestamp
(the entry stays behind on a parse error), then run the per-target step. -/
def uaValidate (d : UADetector) (req : Request) :
    VResult (Option BanRequest) × UADetector :=
  match req.headers.find? (fun p => eqIgnoreCase p.1 "user-agent") with
  | none => (.err "User-Agent header not found", d)
  | some hdr =>
    let ua := hdr.2
    if ¬ (d.patterns.foldl (fun r p => p ua || r) false) then (.ok none, d)
    else
      match d.rules.get? 0 with
      | none => (.err "rule 0 not found", d)
      | some rule0 =>
        let fresh := freshUAState rule0.limit
        let states1 := ensureState d.ua_ban_states ua fresh
        match req.timestamp with
        | none => (.err "timestamp parse error", { d with ua_ban_states := states1 })
        | some t =>
          let st0 := (lookupState states1 ua).getD fresh
          let (res, st1) := uaStep d.rules rule0 d.ban_description ua st0 t
          (res, { d with ua_ban_states := setState states1 ua st1 })

/-- Feeding a request sequence through the ua detector. -/
def runUA (d : UADetector) :
    List Request → List (VResult (Option BanRequest)) × UADetector
  | [] => ([], d)
  | r :: rest =>
    let (res, d1) := uaValidate d r
    let (out, d2) := runUA d1 rest
    (res :: out, d2)

/-- Request carrying a User-Agent header at a parsed timestamp t. -/
def uaReq (ua : String) (t : Int) : Request :=
  { timestamp := some t, remote_ip := "", method := "", path := ""
    headers := [("User-Agent", ua)], body := "" }

/-- Fresh ua detector over the default rules gating on the literal
user agent 123 (the pattern the repository's tests use). -/
def defaultUADetector : UADetector :=
  { ban_description := "", rules := defaultRules
    patterns := [fun s => s == "123"], ua_ban_states := [] }

/-! The RequestsFromIPCost detector
(src/src/validators/requests_from_ip_cost/validator.rs). This variant
reads the host wall clock: validate samples Utc::now() (validator.rs line
107) and State::should_reset_timeout compares resets_at with Utc::now()
(state.rs line 24), so the embedding threads the sampled wall-clock
instant now as an explicit argument. -/

/-- Cost pattern (validator.rs Pattern): compiled regexes are predicates. -/
structure CostPattern where
  method : Option String
  pathMatch : String → Bool
  bodyMatch : Option (String → Bool)
  cost : Nat

/-- Per-target state of the ip-cost detector
(src/src/validators/requests_from_ip_cost/state.rs): an unbounded window
of (cost, instant) pairs. -/
structure CostState where
  cost_limit : Nat
  cost_since_last_ban : Nat
  applied_rule_idx : Option Nat
  recent_requests : List (Nat × Int)
  resets_at : Int
deriving DecidableEq, Repr

/-- State::new(first_rule.limit) of the ip-cost detector. -/
def freshCostState (limit : Nat) : CostState :=
  { cost_limit := limit, cost_since_last_ban := 0, applied_rule_idx := none
    recent_requests := [], resets_at := 0 }

/-- State::is_limit_reached (cost state.rs lines 32 to 38): fold of the
costs of entries strictly newer than for_time against the stored limit. -/
def costLimitReached (st : CostState) (forTime : Int) : Bool :=
  decide (st.cost_limit ≤
    (st.recent_requests.filter (fun e => decide (forTime < e.2))).foldl
      (fun c e => c + e.1) 0)

/-- State::clean_before (cost state.rs lines 40 to 42): retain entries
with instant at least the cutoff. -/
def costCleanBefore (st : CostState) (before : Int) : CostState :=
  { st with recent_requests := st.recent_requests.filter (fun e => decide (before ≤ e.2)) }

/-- RequestsFromIPCost::evaluate_request (validator.rs lines 80 to 94):
cost of the first pattern whose method, path and body gates all pass,
else the default cost. -/
def evaluateRequest (defaultCost : Nat) (patterns : List CostPattern)
    (req : Request) : Nat :=
  match patterns.find? (fun p =>
    (match p.method with | none => true | some m => m == req.method) &&
    p.pathMatch req.path &&
    (match p.bodyMatch with | none => true | some b => b req.body)) with
  | some p => p.cost
  | none => defaultCost

/-- The ip-cost detector. -/
structure IpCostDetector where
  ban_description : String
  rules : List BanRule
  patterns : List CostPattern
  default_cost : Nat
  ip_ban_states : List (String × CostState)

/-- Per-target body of RequestsFromIPCost::validate (validator.rs lines
107 to 165) after rule 0 lookup and state creation, with the sampled wall
clock passed in as now. The reset branch (State::reset, cost state.rs
lines 27 to 30) appends (cost, now) and clears applied_rule_idx, touching
nothing else; the unbanned ban branch does not clear cost_since_last_ban;
a tier transition stores rule_idx + 1 and zeroes the accumulator. -/
def costStep (rules : List BanRule) (rule0 : BanRule) (descr ip : String)
    (st : CostState) (cost : Nat) (now : Int) :
    VResult (Option BanRequest) × CostState :=
  if st.applied_rule_idx.isSome ∧ st.resets_at ≤ now then
    let st1 := { st with
      recent_requests := st.recent_requests ++ [(cost, now)]
      applied_rule_idx := none }
    (.ok none, st1)
  else
    match st.applied_rule_idx with
    | none =>
      let st1 := { st with recent_requests := st.recent_requests ++ [(cost, now)] }
      let st2 := costCleanBefore st1 (now - rule0.resetSec)
      if ¬ costLimitReached st2 (now - rule0.resetSec) then (.ok none, st2)
      else
        let st3 := { st2 with
          resets_at := now + rule0.resetSec
          applied_rule_idx := some 0 }
        (.ok (some (mkIpBan descr (castU32 rule0.banSec) ip)), st3)
    | some idx =>
      let st1 := { st with cost_since_last_ban := st.cost_since_last_ban + cost }
      let ruleIdx := min (idx + 1) (rules.length - 1)
      match rules.get? ruleIdx with
      | none => (.err "rule not found", st1)
      | some rule =>
        if rule.limit ≤ st1.cost_since_last_ban then
          let st2 := { st1 with
            resets_at := now + rule.resetSec
            cost_since_last_ban := 0
            applied_rule_idx := some (ruleIdx + 1) }
          (.ok (some (mkIpBan descr (castU32 rule.banSec) ip)), st2)
        else (.ok none, st1)

/-- RequestsFromIPCost::validate (validator.rs lines 99 to 166): rule 0
lookup, lazy state creation keyed by remote_ip, cost evaluation, then the
per-target step at the sampled wall-clock instant now. -/
def ipCostValidate (d : IpCostDetector) (req : Request) (now : Int) :
    VResult (Option BanRequest) × IpCostDetector :=
  match d.rules.get? 0 with
  | none => (.err "rule 0 not found", d)
  | some rule0 =>
    let ip := req.remote_ip
    let fresh := freshCostState rule0.limit
    let states1 := ensureState d.ip_ban_states ip fresh
    let cost := evaluateRequest d.default_cost d.patterns req
    let st0 := (lookupState states1 ip).getD fresh
    let (res, st1) := costStep d.rules rule0 d.ban_description ip st0 cost now
    (res, { d with ip_ban_states := setState states1 ip st1 })

/-- Feeding a sequence of (request, sampled wall clock) pairs through the
ip-cost detector. -/
def runIpCost (d : IpCostDetector) :
    List (Request × Int) → List (VResult (Option BanRequest)) × IpCostDetector
  | [] => ([], d)
  | (r, now) :: rest =>
    let (res, d1) := ipCostValidate d r now
    let (out, d2) := runIpCost d1 rest
    (res :: out, d2)

/-! The emitter: executor HTTP client and retry loop
(src/src/forwarder/http_client.rs, src/src/forwarder/mod.rs,
src/src/forwarder/service.rs). The network is modeled by the observable
outcome of each POST: a transport failure or a response status code. -/

/-- Outcome of one POST to one executor URL. -/
inductive SendOutcome where
  | transportFail (msg : String)
  | status (code : Nat)
deriving DecidableEq, Repr

/-- ExecutorHttpClient::ban (http_client.rs lines 44 to 80): try_for_each
over the configured URLs; a transport failure short-circuits into Err; a
response with a status other than 204 only emits an error log and the
fold continues with Ok. Returns the emitted error logs and the result. -/
def executorBan : List SendOutcome → List String × Except String Unit
  | [] => ([], .ok ())
  | .transportFail m :: _ => ([], .error ("SendRequest: " ++ m))
  | .status c :: rest =>
    let logs :=
      if c ≠ 204 then ["failed while sending ban request to executor"] else []
    let (ls, r) := executorBan rest
    (logs ++ ls, r)

/-- ExecutorHttpClient::send_ban_request of the sibling forwarder variant
(src/src/forwarder/mod.rs lines 32 to 45): single URL, transport failure
propagates, and any status other than 204 is returned as an error. -/
def sendBanRequest : SendOutcome → Except String Unit
  | .transportFail m => .error m
  | .status c => if c ≠ 204 then .error "status is not OK" else .ok ()

/-- Retry loop body of Service::run (service.rs lines 41 to 65) for one
dequeued ban: the initial client.ban call, and on failure the loop
for underscore in 1..retry_count of sleep-then-retry that breaks on the
first success. attempt i gives the result of the i-th client call (true
is Ok); the fold walks the remaining loop indices. Returns the number of
client calls made and whether the last call succeeded. -/
def retryGo (attempt : Nat → Bool) : List Nat → Nat × Bool
  | [] => (0, false)
  | i :: rest =>
    if attempt i then (1, true)
    else
      let (n, ok) := retryGo attempt rest
      (n + 1, ok)

/-- Calls made for one ban by Service::run: 1 if the first attempt
succeeds, otherwise 1 plus the calls of the retry loop over indices
1..retry_count (which iterates retry_count - 1 times). -/
def retryCalls (attempt : Nat → Bool) (retryCount : Nat) : Nat × Bool :=
  if attempt 0 then (1, true)
  else
    let (n, ok) := retryGo attempt (List.range' 1 (retryCount - 1))
    (1 + n, ok)

/-- Service::run over a queue of bans until the channel disconnects: every
dequeued ban goes through the retry loop (an exhausted ban is dropped with
an error log, the loop continues); yields per-ban call counts. -/
def emitterRun (retryCount : Nat) : List (Nat → Bool) → List (Nat × Bool)
  | [] => []
  | attempt :: rest => retryCalls attempt retryCount :: emitterRun retryCount rest

/-! Concrete inputs used by the theorems below. -/

/-- Request whose timestamp string DateTime::from_str rejects. -/
def badTsReq (ip : String) : Request :=
  { timestamp := none, remote_ip := ip, method := "", path := ""
    headers := [], body := "" }

/-- Single-tier rule list with a zero entry limit. -/
def zeroLimitRules : List BanRule := [{ limit := 0, banSec := 1, resetSec := 2 }]

/-- Ip-cost rule list for the cooldown-expiry scenarios: entry tier limit 1
(ban 1s, reset 2s), escalation tier limit 5 (ban 3s, reset 6s). -/
def costRules : List BanRule :=
  [{ limit := 1, banSec := 1, resetSec := 2 },
   { limit := 5, banSec := 3, resetSec := 6 }]

/-- Fresh ip-cost detector over costRules with every request costing 3. -/
def costDetector3 : IpCostDetector :=
  { ban_description := "", rules := costRules, patterns := []
    default_cost := 3, ip_ban_states := [] }

/-- Ip-cost state banned under tier 0 with the cooldown ending at 10. -/
def bannedCostState : CostState :=
  { cost_limit := 1, cost_since_last_ban := 0, applied_rule_idx := some 0
    recent_requests := [], resets_at := 10 }

/-- Ip-cost detector (escalation tier limit 1) tracking one banned ip. -/
def bannedCostDetector : IpCostDetector :=
  { ban_description := ""
    rules := [{ limit := 1, banSec := 1, resetSec := 2 },
              { limit := 1, banSec := 3, resetSec := 6 }]
    patterns := [], default_cost := 1
    ip_ban_states := [("1.1.1.1", bannedCostState)] }

/-! Claim theorems. -/

/-- C1: starting RequestsFromIPCounter::validate from a fresh per-target
state with the default three-tier rules, seven requests from 1.1.1.1 all
at t0 return Ok(None), Ok(None), Ok(Some(ttl 1)), Ok(None), Ok(Some(ttl
3)), Ok(Some(ttl 4)), Ok(Some(ttl 4)), every ban targeting 1.1.1.1:
escalation is monotone and the last tier re-emits ttl 4. -/
theorem claim_C1_escalation_trace (t0 : Int) :
    (runIpCounter defaultIpCounter
      [ipReq "1.1.1.1" t0, ipReq "1.1.1.1" t0, ipReq "1.1.1.1" t0, ipReq "1.1.1.1" t0,
       ipReq "1.1.1.1" t0, ipReq "1.1.1.1" t0, ipReq "1.1.1.1" t0]).1 =
      [.ok none, .ok none, .ok (some (mkIpBan "" 1 "1.1.1.1")),
       .ok none, .ok (some (mkIpBan "" 3 "1.1.1.1")),
       .ok (some (mkIpBan "" 4 "1.1.1.1")),
       .ok (some (mkIpBan "" 4 "1.1.1.1"))] := by
  have h2 : ¬ (t0 ≤ t0 - 2) := by omega
  have h2b : ¬ (t0 + 2 ≤ t0) := by omega
  have h6 : ¬ (t0 + 6 ≤ t0) := by omega
  have h8 : ¬ (t0 + 8 ≤ t0) := by omega
  have hc1 : castU32 1 = 1 := by rfl
  have hc3 : castU32 3 = 3 := by rfl
  have hc4 : castU32 4 = 4 := by rfl
  have s1 : ipCounterValidate defaultIpCounter (ipReq "1.1.1.1" t0) =
      (.ok none, dOf (cSt 0 none [t0] 0)) := by
    simp [ipCounterValidate, counterStep, CQueue.push, CQueue.isFull, CQueue.oldest?,
      CQueue.clear, ensureState, lookupState, setState, freshCounterState,
      defaultIpCounter, defaultRules, ipReq, dOf, cSt]
  have s2 : ipCounterValidate (dOf (cSt 0 none [t0] 0)) (ipReq "1.1.1.1" t0) =
      (.ok none, dOf (cSt 0 none [t0, t0] 0)) := by
    simp [ipCounterValidate, counterStep, CQueue.push, CQueue.isFull, CQueue.oldest?,
      CQueue.clear, ensureState, lookupState, setState, freshCounterState,
      defaultIpCounter, defaultRules, ipReq, dOf, cSt]
  have s3 : ipCounterValidate (dOf (cSt 0 none [t0, t0] 0)) (ipReq "1.1.1.1" t0) =
      (.ok (some (mkIpBan "" 1 "1.1.1.1")), dOf (cSt 0 (some 0) [] (t0 + 2))) := by
    simp [ipCounterValidate, counterStep, CQueue.push, CQueue.isFull, CQueue.oldest?,
      CQueue.clear, ensureState, lookupState, setState, freshCounterState,
      defaultIpCounter, defaultRules, ipReq, dOf, cSt, h2, hc1]
  have s4 : ipCounterValidate (dOf (cSt 0 (some 0) [] (t0 + 2))) (ipReq "1.1.1.1" t0) =
      (.ok none, dOf (cSt 1 (some 0) [] (t0 + 2))) := by
    simp [ipCounterValidate, counterStep, CQueue.push, CQueue.isFull, CQueue.oldest?,
      CQueue.clear, ensureState, lookupState, setState, freshCounterState,
      defaultIpCounter, defaultRules, ipReq, dOf, cSt, h2b]
  have s5 : ipCounterValidate (dOf (cSt 1 (some 0) [] (t0 + 2))) (ipReq "1.1.1.1" t0) =
      (.ok (some (mkIpBan "" 3 "1.1.1.1")), dOf (cSt 0 (some 2) [] (t0 + 6))) := by
    simp [ipCounterValidate, counterStep, CQueue.push, CQueue.isFull, CQueue.oldest?,
      CQueue.clear, ensureState, lookupState, setState, freshCounterState,
      defaultIpCounter, defaultRules, ipReq, dOf, cSt, h2b, hc3]
  have s6 : ipCounterValidate (dOf (cSt 0 (some 2) [] (t0 + 6))) (ipReq "1.1.1.1" t0) =
      (.ok (some (mkIpBan "" 4 "1.1.1.1")), dOf (cSt 0 (some 3) [] (t0 + 8))) := by
    simp [ipCounterValidate, counterStep, CQueue.push, CQueue.isFull, CQueue.oldest?,
      CQueue.clear, ensureState, lookupState, setState, freshCounterState,
      defaultIpCounter, defaultRules, ipReq, dOf, cSt, h6, hc4]
  have s7 : ipCounterValidate (dOf (cSt 0 (some 3) [] (t0 + 8))) (ipReq "1.1.1.1" t0) =
      (.ok (some (mkIpBan "" 4 "1.1.1.1")), dOf (cSt 0 (some 3) [] (t0 + 8))) := by
    simp [ipCounterValidate, counterStep, CQueue.push, CQueue.isFull, CQueue.oldest?,
      CQueue.clear, ensureState, lookupState, setState, freshCounterState,
      defaultIpCounter, defaultRules, ipReq, dOf, cSt, h8, hc4]
  simp [runIpCounter, s1, s2, s3, s4, s5, s6, s7]

/-- C1 witness: the escalation trace instantiated at t0 = 0. -/
theorem claim_C1_escalation_trace_witness :
    (runIpCounter defaultIpCounter
      [ipReq "1.1.1.1" 0, ipReq "1.1.1.1" 0, ipReq "1.1.1.1" 0, ipReq "1.1.1.1" 0,
       ipReq "1.1.1.1" 0, ipReq "1.1.1.1" 0, ipReq "1.1.1.1" 0]).1 =
      [.ok none, .ok none, .ok (some (mkIpBan "" 1 "1.1.1.1")),
       .ok none, .ok (some (mkIpBan "" 3 "1.1.1.1")),
       .ok (some (mkIpBan "" 4 "1.1.1.1")),
       .ok (some (mkIpBan "" 4 "1.1.1.1"))] :=
  claim_C1_escalation_trace 0

/-- C2: the claim says a matching request bans exactly when the ring is
full and its oldest timestamp is strictly newer than t minus
reset_duration, so three matching requests at t0 end in Some(ban) and
sparse requests never ban. The code has the comparison inverted
(is_above_limit returns oldest at most the cutoff): three requests at t0
all return Ok(None), while three requests spaced 3s apart (more than the
2s reset_duration) return Some(ban ttl 1) on the third, contradicting the
claim and the detector test exceed_requests_leads_to_ban. -/
theorem claim_C2_ua_threshold_inverted :
    (runUA defaultUADetector [uaReq "123" 0, uaReq "123" 0, uaReq "123" 0]).1 =
      [.ok none, .ok none, .ok none] ∧
    (runUA defaultUADetector [uaReq "123" 0, uaReq "123" 3, uaReq "123" 6]).1 =
      [.ok none, .ok none, .ok (some (mkUABan "" 1 "123"))] := by
  constructor
  · decide
  · decide

/-- C5: the claim says every validate is deterministic given (state, req),
with all time comparisons on req.timestamp; RequestsFromIPCost instead
samples the host wall clock (Utc::now() in validator.rs line 107 and
state.rs line 24), so the same detector and request yield a ban when
evaluated before the cooldown end and Ok(None) after it. -/
theorem claim_C5_cost_reads_wall_clock :
    (ipCostValidate bannedCostDetector (ipReq "1.1.1.1" 0) 5).1 ≠
      (ipCostValidate bannedCostDetector (ipReq "1.1.1.1" 0) 20).1 := by
  decide

/-- C6: the claim says validate never panics for any non-empty rule list,
including an entry rule with limit 0. With limit 0 the capacity-0 ring is
permanently full and empty, so the unbanned branch of
RequestsFromIPCounter::validate reaches iter().last().unwrap() on an
empty iterator and panics on the very first request. -/
theorem claim_C6_zero_limit_crashes :
    (ipCounterValidate
      { ban_description := "", rules := zeroLimitRules, ip_ban_states := [] }
      (ipReq "1.1.1.1" 0)).1 = .crash := by
  decide

/-- C8: the claim says the executor client ban returns an error on any
status other than 204 so the emitter retries it. ExecutorHttpClient::ban
in http_client.rs only logs a non-204 response and returns Ok, while the
sibling variant send_ban_request in forwarder/mod.rs does return an error
for the same response. -/
theorem claim_C8_non204_swallowed :
    executorBan [.status 500] =
      (["failed while sending ban request to executor"], .ok ()) ∧
    sendBanRequest (.status 500) = .error "status is not OK" := by
  constructor
  · rfl
  · rfl

/-- C9 counterexample: with retry_count 1 and every attempt failing, the
emitter makes exactly one client call, not the claimed 1 + retry_count =
2, because the retry loop iterates over 1..retry_count. -/
theorem claim_C9_cex_retry_count_one :
    retryCalls (fun _ => false) 1 = (1, false) ∧ (1 : Nat) ≠ 1 + 1 := by
  constructor
  · rfl
  · decide

/-- Helper: an all-failing retry loop walks its whole index list. -/
theorem retryGo_all_fail (attempt : Nat → Bool) (l : List Nat)
    (h : ∀ i, attempt i = false) : retryGo attempt l = (l.length, false) := by
  induction l with
  | nil => rfl
  | cons i rest ih =>
    simp [retryGo, h i, ih]

/-- Helper: a retry walk whose first success is at index k stops there. -/
theorem retryGo_first_success (attempt : Nat → Bool) :
    ∀ (n s k : Nat), s ≤ k → k < s + n → (∀ i, i < k → attempt i = false) →
    attempt k = true → retryGo attempt (List.range' s n) = (k - s + 1, true) := by
  intro n
  induction n with
  | zero =>
    intro s k h1 h2 hfalse htrue
    omega
  | succ m ih =>
    intro s k h1 h2 hfalse htrue
    by_cases hk : s = k
    · subst hk
      simp [List.range', retryGo, htrue]
    · have hs : s < k := lt_of_le_of_ne h1 hk
      have hf : attempt s = false := hfalse s hs
      have hrec := ih (s + 1) k (by omega) (by omega) hfalse htrue
      simp only [List.range', retryGo, hf, Bool.false_eq_true, if_false, hrec]
      have harith : k - (s + 1) + 1 + 1 = k - s + 1 := by omega
      rw [harith]

/-- C9 amended: when every send attempt fails the emitter calls the
executor client exactly max(1, retry_count) times for that ban (the
initial attempt plus retry_count - 1 fixed-interval retries when
retry_count is at least 1); when the first successful attempt is attempt
k (k < retry_count, attempts numbered from 0) exactly k + 1 calls are
made, so a success at any attempt stops further attempts; and the service
processes every queued ban (one retry bout per dequeued ban, dropped bans
do not stop the loop). -/
theorem claim_C9_retry_attempt_count :
    (∀ (attempt : Nat → Bool) (rc : Nat), (∀ i, attempt i = false) →
      retryCalls attempt rc = (max 1 rc, false)) ∧
    (∀ (attempt : Nat → Bool) (rc : Nat), attempt 0 = true →
      retryCalls attempt rc = (1, true)) ∧
    (∀ (rc : Nat) (bans : List (Nat → Bool)),
      (emitterRun rc bans).length = bans.length) ∧
    (∀ (attempt : Nat → Bool) (rc k : Nat),
      (∀ i, i < k → attempt i = false) → attempt k = true → k < rc →
      retryCalls attempt rc = (k + 1, true)) := by
  refine ⟨?_, ?_, ?_, ?_⟩
  · intro attempt rc h
    simp [retryCalls, h 0, retryGo_all_fail attempt _ h, List.length_range']
    omega
  · intro attempt rc h
    simp [retryCalls, h]
  · intro rc bans
    induction bans with
    | nil => rfl
    | cons b rest ih => simp [emitterRun, ih]
  · intro attempt rc k hfalse htrue hk
    cases k with
    | zero =>
      simp [retryCalls, htrue]
    | succ k0 =>
      have h0 : attempt 0 = false := hfalse 0 (Nat.succ_pos k0)
      have hgo := retryGo_first_success attempt (rc - 1) 1 (k0 + 1)
        (by omega) (by omega) hfalse htrue
      simp only [retryCalls, h0, Bool.false_eq_true, if_false, hgo]
      have harith : 1 + (k0 + 1 - 1 + 1) = k0 + 1 + 1 := by omega
      rw [harith]

/-- C9 witness: the amended counts at retry_count 4 with all attempts
failing, with a first-attempt success, and with the first success at
attempt 2 (three calls, then stop). -/
theorem claim_C9_retry_attempt_count_witness :
    retryCalls (fun _ => false) 4 = (max 1 4, false) ∧
    retryCalls (fun _ => true) 4 = (1, true) ∧
    retryCalls (fun i => decide (i = 2)) 4 = (2 + 1, true) :=
  ⟨claim_C9_retry_attempt_count.1 (fun _ => false) 4 (fun _ => rfl),
   claim_C9_retry_attempt_count.2.1 (fun _ => true) 4 rfl,
   claim_C9_retry_attempt_count.2.2.2 (fun i => decide (i = 2)) 4 2
     (by intro i hi; simp; omega) (by decide) (by decide)⟩

/-- C3 counterexample: with the default three tiers (last index 2), six
requests at t0 from one ip leave the stored applied rule index at 3: the
banned branch stores rule_idx + 1 after the clamp, so the stored index
exceeds the index of the last configured rule, contradicting the claim. -/
theorem claim_C3_cex_stored_index_overshoots :
    ((lookupState (runIpCounter defaultIpCounter
        [ipReq "1.1.1.1" 0, ipReq "1.1.1.1" 0, ipReq "1.1.1.1" 0,
         ipReq "1.1.1.1" 0, ipReq "1.1.1.1" 0, ipReq "1.1.1.1" 0]).2.ip_ban_states
      "1.1.1.1").map CounterState.applied_rule_idx) = some (some 3) ∧
    defaultIpCounter.rules.length - 1 = 2 ∧ ¬ (3 ≤ 2) := by
  refine ⟨by decide, by decide, by decide⟩

/-- C4 counterexample: RequestsFromIPCost banned under tier 0 with
cost_since_last_ban 3 hits the cooldown expiry (now = resets_at = 2); the
reset branch returns Ok(None), clears applied_rule and appends to the
window, but the accumulator stays 3 instead of the claimed reset to 0. -/
theorem claim_C4_cex_accumulator_survives_reset :
    (runIpCost costDetector3
      [(ipReq "1.1.1.1" 0, 0), (ipReq "1.1.1.1" 0, 1), (ipReq "1.1.1.1" 0, 2)]).1 =
      [.ok (some (mkIpBan "" 1 "1.1.1.1")), .ok none, .ok none] ∧
    ((lookupState (runIpCost costDetector3
        [(ipReq "1.1.1.1" 0, 0), (ipReq "1.1.1.1" 0, 1), (ipReq "1.1.1.1" 0, 2)]).2.ip_ban_states
      "1.1.1.1").map CostState.cost_since_last_ban) = some 3 ∧ (3 : Nat) ≠ 0 := by
  refine ⟨by decide, by decide, by decide⟩

/-- C7 counterexample: a request from a previously unseen ip whose
timestamp fails to parse makes RequestsFromIPCounter::validate return Err
after the state entry was already created, so the per-target state map
differs from its value before the call. -/
theorem claim_C7_cex_entry_inserted_on_err :
    (ipCounterValidate defaultIpCounter (badTsReq "1.1.1.1")).1 =
      .err "timestamp parse error" ∧
    (ipCounterValidate defaultIpCounter (badTsReq "1.1.1.1")).2.ip_ban_states =
      [("1.1.1.1", freshCounterState 3)] ∧
    defaultIpCounter.ip_ban_states = [] := by
  refine ⟨by decide, by decide, by decide⟩

/-- C4 amended: in every detector, when a request arrives during an
applied rule whose cooldown has ended (t at least resets_at), validate
takes the reset branch: it clears applied_rule, appends the new
observation to the recent window, returns Ok(None), and leaves every
other per-target field, in particular the cost_since_last_ban or
requests_since_last_ban accumulator, unchanged (the accumulator is not
reset to 0). -/
theorem claim_C4_cooldown_reset_keeps_accumulator :
    (∀ (rules : List BanRule) (rule0 : BanRule) (descr ip : String)
        (st : CounterState) (t : Int) (prev : Nat),
      st.applied_rule_idx = some prev → st.resets_at ≤ t →
      counterStep rules rule0 descr ip st t =
        (.ok none, { st with applied_rule_idx := none,
                             recent_requests := st.recent_requests.push t })) ∧
    (∀ (rules : List BanRule) (rule0 : BanRule) (descr ua : String)
        (st : UAState) (t : Int) (i : Nat) (ra : Int),
      st.applied_rule = some (i, ra) → ra ≤ t →
      uaStep rules rule0 descr ua st t =
        (.ok none, { st with applied_rule := none,
                             recent_requests := st.recent_requests.push t })) ∧
    (∀ (rules : List BanRule) (rule0 : BanRule) (descr ip : String)
        (st : CostState) (cost : Nat) (now : Int) (idx : Nat),
      st.applied_rule_idx = some idx → st.resets_at ≤ now →
      costStep rules rule0 descr ip st cost now =
        (.ok none, { st with applied_rule_idx := none,
                             recent_requests := st.recent_requests ++ [(cost, now)] })) := by
  refine ⟨?_, ?_, ?_⟩
  · intro rules rule0 descr ip st t prev h1 h2
    simp [counterStep, h1, h2]
  · intro rules rule0 descr ua st t i ra h1 h2
    simp [uaStep, h1, h2]
  · intro rules rule0 descr ip st cost now idx h1 h2
    simp [costStep, h1, h2]

/-- C4 witness: the counter reset branch applied to a banned state with a
nonzero accumulator at the cooldown end. -/
theorem claim_C4_cooldown_reset_keeps_accumulator_witness :
    counterStep defaultRules { limit := 3, banSec := 1, resetSec := 2 } "" "1.1.1.1"
      (cSt 5 (some 0) [] 0) 1 =
      (.ok none,
        { (cSt 5 (some 0) [] 0) with
          applied_rule_idx := none
          recent_requests := (cSt 5 (some 0) [] 0).recent_requests.push 1 }) :=
  claim_C4_cooldown_reset_keeps_accumulator.1 defaultRules
    { limit := 3, banSec := 1, resetSec := 2 } "" "1.1.1.1"
    (cSt 5 (some 0) [] 0) 1 0 rfl (by decide)

/-- Helper: membership in a rule list from a successful index lookup. -/
theorem mem_of_rules_get (rules : List BanRule) (n : Nat) (r : BanRule)
    (h : rules.get? n = some r) : r ∈ rules := by
  induction rules generalizing n with
  | nil => simp [List.get?] at h
  | cons a l ih =>
    cases n with
    | zero => simp [List.get?] at h; simp [h]
    | succ m =>
      simp only [List.get?] at h
      exact List.mem_cons_of_mem a (ih m h)

/-- Helper: a ban emitted by the ip-counter per-target step carries the
truncated ban_duration of some configured rule. -/
theorem counterStep_ban_ttl (rules : List BanRule) (rule0 : BanRule)
    (descr ip : String) (st : CounterState) (t : Int) (ban : BanRequest)
    (st2 : CounterState) (hr0 : rules.get? 0 = some rule0)
    (h : counterStep rules rule0 descr ip st t = (.ok (some ban), st2)) :
    ∃ r ∈ rules, ban.ttl = castU32 r.banSec := by
  unfold counterStep at h
  cases hA : st.applied_rule_idx with
  | none =>
    simp only [hA] at h
    split at h
    · simp at h
    · split at h
      · simp at h
      · split at h
        · simp at h
        · simp only [Prod.mk.injEq, VResult.ok.injEq, Option.some.injEq] at h
          refine ⟨rule0, mem_of_rules_get rules 0 rule0 hr0, ?_⟩
          rw [← h.1]; rfl
  | some prev =>
    simp only [hA] at h
    split at h
    · simp at h
    · split at h
      · simp at h
      · rename_i rule hget
        split at h
        · simp only [Prod.mk.injEq, VResult.ok.injEq, Option.some.injEq] at h
          refine ⟨rule, mem_of_rules_get rules _ rule hget, ?_⟩
          rw [← h.1]; rfl
        · simp at h

/-- Helper: a ban emitted by the ua per-target step carries the truncated
ban_duration of some configured rule. -/
theorem uaStep_ban_ttl (rules : List BanRule) (rule0 : BanRule)
    (descr ua : String) (st : UAState) (t : Int) (ban : BanRequest)
    (st2 : UAState) (hr0 : rules.get? 0 = some rule0)
    (h : uaStep rules rule0 descr ua st t = (.ok (some ban), st2)) :
    ∃ r ∈ rules, ban.ttl = castU32 r.banSec := by
  unfold uaStep at h
  split at h
  · simp at h
  · cases hA : st.applied_rule with
    | none =>
      simp only [hA] at h
      split at h
      · simp at h
      · simp at h
      · simp at h
      · simp only [Prod.mk.injEq, VResult.ok.injEq, Option.some.injEq] at h
        refine ⟨rule0, mem_of_rules_get rules 0 rule0 hr0, ?_⟩
        rw [← h.1]; rfl
    | some ar =>
      simp only [hA] at h
      split at h
      · simp at h
      · rename_i rule hget
        split at h
        · simp only [Prod.mk.injEq, VResult.ok.injEq, Option.some.injEq] at h
          refine ⟨rule, mem_of_rules_get rules _ rule hget, ?_⟩
          rw [← h.1]; rfl
        · simp at h

/-- Helper: a ban emitted by the ip-cost per-target step carries the
truncated ban_duration of some configured rule. -/
theorem costStep_ban_ttl (rules : List BanRule) (rule0 : BanRule)
    (descr ip : String) (st : CostState) (cost : Nat) (now : Int)
    (ban : BanRequest) (st2 : CostState) (hr0 : rules.get? 0 = some rule0)
    (h : costStep rules rule0 descr ip st cost now = (.ok (some ban), st2)) :
    ∃ r ∈ rules, ban.ttl = castU32 r.banSec := by
  unfold costStep at h
  split at h
  · simp at h
  · cases hA : st.applied_rule_idx with
    | none =>
      simp only [hA] at h
      split at h
      · simp at h
      · simp only [Prod.mk.injEq, VResult.ok.injEq, Option.some.injEq] at h
        refine ⟨rule0, mem_of_rules_get rules 0 rule0 hr0, ?_⟩
        rw [← h.1]; rfl
    | some idx =>
      simp only [hA] at h
      split at h
      · simp at h
      · rename_i rule hget
        split at h
        · simp only [Prod.mk.injEq, VResult.ok.injEq, Option.some.injEq] at h
          refine ⟨rule, mem_of_rules_get rules _ rule hget, ?_⟩
          rw [← h.1]; rfl
        · simp at h

/-- Single-tier rule list whose ban_duration is 2 to the 32 seconds. -/
def wrapRules : List BanRule := [{ limit := 1, banSec := 2 ^ 32, resetSec := 2 }]

/-- C10: every emitted ban carries ttl equal to the i64 whole-seconds
count of the applied rule ban_duration cast to u32, that is reduced
modulo 2 to the 32; an out-of-range duration silently wraps rather than
erroring: a configured ban_duration of 2 to the 32 seconds emits ttl 0,
and a duration of -1 seconds casts to 4294967295. -/
theorem claim_C10_ttl_is_u32_cast :
    (∀ (d : IpCounterDetector) (req : Request) (res : VResult (Option BanRequest))
        (d2 : IpCounterDetector) (ban : BanRequest),
      ipCounterValidate d req = (res, d2) → res = .ok (some ban) →
      ∃ r ∈ d.rules, ban.ttl = castU32 r.banSec) ∧
    (∀ (d : UADetector) (req : Request) (res : VResult (Option BanRequest))
        (d2 : UADetector) (ban : BanRequest),
      uaValidate d req = (res, d2) → res = .ok (some ban) →
      ∃ r ∈ d.rules, ban.ttl = castU32 r.banSec) ∧
    (∀ (d : IpCostDetector) (req : Request) (now : Int)
        (res : VResult (Option BanRequest)) (d2 : IpCostDetector) (ban : BanRequest),
      ipCostValidate d req now = (res, d2) → res = .ok (some ban) →
      ∃ r ∈ d.rules, ban.ttl = castU32 r.banSec) ∧
    (ipCounterValidate
        { ban_description := "", rules := wrapRules, ip_ban_states := [] }
        (ipReq "9.9.9.9" 0)).1 = .ok (some (mkIpBan "" 0 "9.9.9.9")) ∧
    castU32 (-1) = 4294967295 := by
  refine ⟨?_, ?_, ?_, by decide, by rfl⟩
  · intro d req res d2 ban h hres
    subst hres
    unfold ipCounterValidate at h
    split at h
    · simp at h
    · rename_i rule0 hget
      split at h
      · simp at h
      · rename_i t ht
        dsimp only at h
        simp only [Prod.mk.injEq] at h
        exact counterStep_ban_ttl _ _ _ _ _ _ _ _ hget (by rw [← h.1])
  · intro d req res d2 ban h hres
    subst hres
    unfold uaValidate at h
    split at h
    · simp at h
    · rename_i hdr hfind
      dsimp only at h
      split at h
      · simp at h
      · split at h
        · simp at h
        · rename_i rule0 hget
          split at h
          · simp at h
          · rename_i t ht
            simp only [Prod.mk.injEq] at h
            exact uaStep_ban_ttl _ _ _ _ _ _ _ _ hget (by rw [← h.1])
  · intro d req now res d2 ban h hres
    subst hres
    unfold ipCostValidate at h
    split at h
    · simp at h
    · rename_i rule0 hget
      dsimp only at h
      simp only [Prod.mk.injEq] at h
      exact costStep_ban_ttl _ _ _ _ _ _ _ _ _ hget (by rw [← h.1])

/-- C10 witness: the third request of the escalation trace emits a ban
whose ttl is the u32 cast of a configured rule ban_duration. -/
theorem claim_C10_ttl_is_u32_cast_witness :
    ∃ r ∈ defaultIpCounter.rules, (mkIpBan "" 1 "1.1.1.1").ttl = castU32 r.banSec :=
  claim_C10_ttl_is_u32_cast.1
    (dOf (cSt 0 none [0, 0] 0)) (ipReq "1.1.1.1" 0) _ _ (mkIpBan "" 1 "1.1.1.1")
    rfl (by decide)

/-- Bound on a stored ip-counter rule index. -/
def counterIdxOk (rules : List BanRule) (st : CounterState) : Prop :=
  ∀ i, st.applied_rule_idx = some i → i ≤ rules.length

/-- Bound on a stored ip-cost rule index. -/
def costIdxOk (rules : List BanRule) (st : CostState) : Prop :=
  ∀ i, st.applied_rule_idx = some i → i ≤ rules.length

/-- Bound on a stored ua rule index. -/
def uaIdxOk (rules : List BanRule) (st : UAState) : Prop :=
  ∀ i ra, st.applied_rule = some (i, ra) → i ≤ rules.length - 1

theorem lt_of_rules_get (rules : List BanRule) (n : Nat) (r : BanRule)
    (h : rules.get? n = some r) : n < rules.length := by
  induction rules generalizing n with
  | nil => simp [List.get?] at h
  | cons a l ih =>
    cases n with
    | zero => simp
    | succ m =>
      simp only [List.get?] at h
      exact Nat.succ_lt_succ (ih m h)

theorem counterStep_preserves_idxOk (rules : List BanRule) (rule0 : BanRule)
    (descr ip : String) (st : CounterState) (t : Int)
    (hin : counterIdxOk rules st) :
    counterIdxOk rules (counterStep rules rule0 descr ip st t).2 := by
  rcases hs : counterStep rules rule0 descr ip st t with ⟨res, st2⟩
  intro i hi
  unfold counterStep at hs
  cases hA : st.applied_rule_idx with
  | none =>
    simp only [hA] at hs
    split at hs
    · cases hs; simp [hA] at hi
    · split at hs
      · cases hs; simp [hA] at hi
      · split at hs
        · cases hs; simp [hA] at hi
        · cases hs
          simp at hi
          omega
  | some prev =>
    simp only [hA] at hs
    split at hs
    · cases hs; simp at hi
    · split at hs
      · cases hs
        simp [hA] at hi
        subst hi
        exact hin prev hA
      · rename_i rule hget
        split at hs
        · cases hs
          simp at hi
          have hlt := lt_of_rules_get rules _ rule hget
          omega
        · cases hs
          simp [hA] at hi
          subst hi
          exact hin prev hA

theorem counterStep_idx_mono (rules : List BanRule) (rule0 : BanRule)
    (descr ip : String) (st : CounterState) (t : Int) (i j : Nat)
    (hin : counterIdxOk rules st)
    (hi : st.applied_rule_idx = some i)
    (hj : (counterStep rules rule0 descr ip st t).2.applied_rule_idx = some j) :
    i ≤ j := by
  rcases hs : counterStep rules rule0 descr ip st t with ⟨res, st2⟩
  rw [hs] at hj
  unfold counterStep at hs
  simp only [hi] at hs
  split at hs
  · cases hs; simp at hj
  · split at hs
    · cases hs
      simp [hi] at hj
      omega
    · rename_i rule hget
      split at hs
      · cases hs
        simp at hj
        have hle := hin i hi
        have hlt := lt_of_rules_get rules _ rule hget
        omega
      · cases hs
        simp [hi] at hj
        omega

theorem costStep_preserves_idxOk (rules : List BanRule) (rule0 : BanRule)
    (descr ip : String) (st : CostState) (cost : Nat) (now : Int)
    (hin : costIdxOk rules st) :
    costIdxOk rules (costStep rules rule0 descr ip st cost now).2 := by
  rcases hs : costStep rules rule0 descr ip st cost now with ⟨res, st2⟩
  intro i hi
  unfold costStep at hs
  split at hs
  · cases hs; simp at hi
  · cases hA : st.applied_rule_idx with
    | none =>
      simp only [hA] at hs
      split at hs
      · cases hs; simp [costCleanBefore, hA] at hi
      · cases hs
        simp at hi
        omega
    | some prev =>
      simp only [hA] at hs
      split at hs
      · cases hs
        simp [hA] at hi
        subst hi
        exact hin prev hA
      · rename_i rule hget
        split at hs
        · cases hs
          simp at hi
          have hlt := lt_of_rules_get rules _ rule hget
          omega
        · cases hs
          simp [hA] at hi
          subst hi
          exact hin prev hA

theorem costStep_idx_mono (rules : List BanRule) (rule0 : BanRule)
    (descr ip : String) (st : CostState) (cost : Nat) (now : Int) (i j : Nat)
    (hin : costIdxOk rules st)
    (hi : st.applied_rule_idx = some i)
    (hj : (costStep rules rule0 descr ip st cost now).2.applied_rule_idx = some j) :
    i ≤ j := by
  rcases hs : costStep rules rule0 descr ip st cost now with ⟨res, st2⟩
  rw [hs] at hj
  unfold costStep at hs
  split at hs
  · cases hs; simp at hj
  · simp only [hi] at hs
    split at hs
    · cases hs
      simp [hi] at hj
      omega
    · rename_i rule hget
      split at hs
      · cases hs
        simp at hj
        have hle := hin i hi
        have hlt := lt_of_rules_get rules _ rule hget
        omega
      · cases hs
        simp [hi] at hj
        omega

theorem uaStep_preserves_idxOk (rules : List BanRule) (rule0 : BanRule)
    (descr ua : String) (st : UAState) (t : Int)
    (hin : uaIdxOk rules st) :
    uaIdxOk rules (uaStep rules rule0 descr ua st t).2 := by
  rcases hs : uaStep rules rule0 descr ua st t with ⟨res, st2⟩
  intro i ra hi
  unfold uaStep at hs
  split at hs
  · cases hs; simp at hi
  · cases hA : st.applied_rule with
    | none =>
      simp only [hA] at hs
      split at hs
      · cases hs; simp [hA] at hi
      · cases hs; simp [hA] at hi
      · cases hs; simp [hA] at hi
      · cases hs
        simp at hi
        omega
    | some ar =>
      simp only [hA] at hs
      split at hs
      · cases hs
        simp [hA] at hi
        exact hin i ra (by rw [hA, hi])
      · rename_i rule hget
        split at hs
        · cases hs
          simp at hi
          have hlt := lt_of_rules_get rules _ rule hget
          omega
        · cases hs
          simp [hA] at hi
          exact hin i ra (by rw [hA, hi])

theorem uaStep_idx_clamped (rules : List BanRule) (rule0 : BanRule)
    (descr ua : String) (st : UAState) (t : Int) (i j : Nat) (ra ra2 : Int)
    (hin : uaIdxOk rules st)
    (hi : st.applied_rule = some (i, ra))
    (hj : (uaStep rules rule0 descr ua st t).2.applied_rule = some (j, ra2)) :
    (j = i ∨ j = min (i + 1) (rules.length - 1)) ∧ i ≤ j := by
  rcases hs : uaStep rules rule0 descr ua st t with ⟨res, st2⟩
  rw [hs] at hj
  unfold uaStep at hs
  split at hs
  · cases hs; simp at hj
  · simp only [hi] at hs
    split at hs
    · cases hs
      simp [hi] at hj
      obtain ⟨h1, h2⟩ := hj
      exact ⟨Or.inl h1.symm, by omega⟩
    · rename_i rule hget
      split at hs
      · cases hs
        simp at hj
        have hle := hin i ra hi
        have hlt := lt_of_rules_get rules _ rule hget
        obtain ⟨h1, h2⟩ := hj
        refine ⟨Or.inr ?_, ?_⟩ <;> omega
      · cases hs
        simp [hi] at hj
        obtain ⟨h1, h2⟩ := hj
        exact ⟨Or.inl h1.symm, by omega⟩

theorem lookupState_cons {σ : Type} (k3 : String) (v : σ)
    (rest : List (String × σ)) (k : String) :
    lookupState ((k3, v) :: rest) k = if k3 = k then some v else lookupState rest k := rfl

theorem setState_cons {σ : Type} (k3 : String) (w : σ)
    (rest : List (String × σ)) (k : String) (v : σ) :
    setState ((k3, w) :: rest) k v =
      (if k3 = k then (k, v) else (k3, w)) :: setState rest k v := rfl

theorem lookupState_append_single_ne {σ : Type} (m : List (String × σ))
    (k k2 : String) (f : σ) (h : k2 ≠ k) :
    lookupState (m ++ [(k, f)]) k2 = lookupState m k2 := by
  induction m with
  | nil =>
    simp only [List.nil_append, lookupState_cons, lookupState]
    rw [if_neg (fun hk => h hk.symm)]
  | cons p rest ih =>
    rcases p with ⟨k3, v⟩
    rw [List.cons_append, lookupState_cons, lookupState_cons, ih]

theorem lookupState_append_single_self {σ : Type} (m : List (String × σ))
    (k : String) (f : σ) (h : lookupState m k = none) :
    lookupState (m ++ [(k, f)]) k = some f := by
  induction m with
  | nil => simp [lookupState_cons, lookupState]
  | cons p rest ih =>
    rcases p with ⟨k3, v⟩
    rw [lookupState_cons] at h
    split at h
    · cases h
    · rename_i hk
      rw [List.cons_append, lookupState_cons, if_neg hk]
      exact ih h

theorem lookupState_ensure_self {σ : Type} (m : List (String × σ))
    (k : String) (f : σ) :
    lookupState (ensureState m k f) k = some ((lookupState m k).getD f) := by
  unfold ensureState
  cases hl : lookupState m k with
  | some v => simp [hl]
  | none => simp [lookupState_append_single_self m k f hl]

theorem lookupState_ensure_ne {σ : Type} (m : List (String × σ))
    (k k2 : String) (f : σ) (h : k2 ≠ k) :
    lookupState (ensureState m k f) k2 = lookupState m k2 := by
  unfold ensureState
  cases hl : lookupState m k with
  | some v => rfl
  | none => exact lookupState_append_single_ne m k k2 f h

theorem lookupState_set_self {σ : Type} (m : List (String × σ))
    (k : String) (v : σ) :
    lookupState (setState m k v) k = (lookupState m k).map (fun _ => v) := by
  induction m with
  | nil => rfl
  | cons p rest ih =>
    rcases p with ⟨k3, w⟩
    rw [setState_cons]
    by_cases hk : k3 = k
    · subst hk
      rw [if_pos rfl, lookupState_cons, if_pos rfl, lookupState_cons, if_pos rfl]
      rfl
    · rw [if_neg hk, lookupState_cons, if_neg hk, lookupState_cons, if_neg hk, ih]

theorem lookupState_set_ne {σ : Type} (m : List (String × σ))
    (k k2 : String) (v : σ) (h : k2 ≠ k) :
    lookupState (setState m k v) k2 = lookupState m k2 := by
  induction m with
  | nil => rfl
  | cons p rest ih =>
    rcases p with ⟨k3, w⟩
    rw [setState_cons]
    by_cases hk : k3 = k
    · subst hk
      rw [if_pos rfl, lookupState_cons, if_neg (fun hx => h hx.symm),
        lookupState_cons, if_neg (fun hx => h hx.symm), ih]
    · rw [if_neg hk, lookupState_cons, lookupState_cons, ih]

theorem ipCounterValidate_rules_empty (d : IpCounterDetector) (req : Request)
    (hg : d.rules.get? 0 = none) :
    ipCounterValidate d req = (.err "rule 0 not found", d) := by
  unfold ipCounterValidate
  split
  · rfl
  · rename_i rule0x hget
    rw [hg] at hget; cases hget

theorem ipCounterValidate_parse_fail (d : IpCounterDetector) (req : Request)
    (rule0 : BanRule) (hg : d.rules.get? 0 = some rule0) (ht : req.timestamp = none) :
    ipCounterValidate d req =
      (.err "timestamp parse error",
       { d with
          ip_ban_states :=
            ensureState d.ip_ban_states req.remote_ip (freshCounterState rule0.limit) }) := by
  unfold ipCounterValidate
  split
  · rename_i hget; rw [hg] at hget; cases hget
  · rename_i rule0x hget
    rw [hg] at hget
    injection hget with hr
    subst hr
    split
    · rfl
    · rename_i tx hts; rw [ht] at hts; cases hts

theorem ipCounterValidate_parsed (d : IpCounterDetector) (req : Request)
    (rule0 : BanRule) (t : Int) (hg : d.rules.get? 0 = some rule0)
    (ht : req.timestamp = some t) :
    ipCounterValidate d req =
      ((counterStep d.rules rule0 d.ban_description req.remote_ip
          ((lookupState (ensureState d.ip_ban_states req.remote_ip
            (freshCounterState rule0.limit)) req.remote_ip).getD
            (freshCounterState rule0.limit)) t).1,
       { d with
          ip_ban_states :=
            setState (ensureState d.ip_ban_states req.remote_ip
              (freshCounterState rule0.limit)) req.remote_ip
              (counterStep d.rules rule0 d.ban_description req.remote_ip
                ((lookupState (ensureState d.ip_ban_states req.remote_ip
                  (freshCounterState rule0.limit)) req.remote_ip).getD
                  (freshCounterState rule0.limit)) t).2 }) := by
  unfold ipCounterValidate
  split
  · rename_i hget; rw [hg] at hget; cases hget
  · rename_i rule0x hget
    rw [hg] at hget
    injection hget with hr
    subst hr
    split
    · rename_i hts; rw [ht] at hts; cases hts
    · rename_i tx hts
      rw [ht] at hts
      injection hts with htx
      subst htx
      rfl

theorem freshCounter_idxOk (rules : List BanRule) (lim : Nat) :
    counterIdxOk rules (freshCounterState lim) := by
  intro i hi
  simp [freshCounterState] at hi

def counterMapOk (d : IpCounterDetector) : Prop :=
  ∀ k st, lookupState d.ip_ban_states k = some st → counterIdxOk d.rules st

theorem ipCounterValidate_preserves_mapOk (d : IpCounterDetector) (req : Request)
    (h : counterMapOk d) : counterMapOk (ipCounterValidate d req).2 := by
  cases hg : d.rules.get? 0 with
  | none =>
    rw [ipCounterValidate_rules_empty d req hg]
    exact h
  | some rule0 =>
    cases ht : req.timestamp with
    | none =>
      rw [ipCounterValidate_parse_fail d req rule0 hg ht]
      intro k st hl
      dsimp only at hl
      by_cases hk : k = req.remote_ip
      · subst hk
        rw [lookupState_ensure_self] at hl
        injection hl with hst
        cases hlo : lookupState d.ip_ban_states req.remote_ip with
        | some s0 =>
          rw [hlo] at hst
          exact hst ▸ h req.remote_ip s0 hlo
        | none =>
          rw [hlo] at hst
          exact hst ▸ freshCounter_idxOk d.rules rule0.limit
      · rw [lookupState_ensure_ne _ _ _ _ hk] at hl
        exact h k st hl
    | some t =>
      rw [ipCounterValidate_parsed d req rule0 t hg ht]
      intro k st hl
      dsimp only at hl
      by_cases hk : k = req.remote_ip
      · subst hk
        rw [lookupState_set_self, lookupState_ensure_self] at hl
        simp only [Option.map_some'] at hl
        injection hl with hst
        have hst0 : counterIdxOk d.rules
            ((lookupState d.ip_ban_states req.remote_ip).getD (freshCounterState rule0.limit)) := by
          cases hlo : lookupState d.ip_ban_states req.remote_ip with
          | some s0 => simpa [hlo] using h req.remote_ip s0 hlo
          | none => simpa [hlo] using freshCounter_idxOk d.rules rule0.limit
        exact hst ▸ counterStep_preserves_idxOk d.rules rule0 d.ban_description req.remote_ip _ t hst0
      · rw [lookupState_set_ne _ _ _ _ hk, lookupState_ensure_ne _ _ _ _ hk] at hl
        exact h k st hl

theorem runIpCounter_preserves_mapOk (reqs : List Request) :
    ∀ d : IpCounterDetector, counterMapOk d → counterMapOk (runIpCounter d reqs).2 := by
  induction reqs with
  | nil =>
    intro d h
    simpa [runIpCounter] using h
  | cons r rest ih =>
    intro d h
    have h1 := ipCounterValidate_preserves_mapOk d r h
    rcases hv : ipCounterValidate d r with ⟨res, d1⟩
    rw [hv] at h1
    have hred : (runIpCounter d (r :: rest)).2 = (runIpCounter d1 rest).2 := by
      simp [runIpCounter, hv]
    rw [hred]
    exact ih d1 h1

theorem ipCostValidate_rules_empty (d : IpCostDetector) (req : Request) (now : Int)
    (hg : d.rules.get? 0 = none) :
    ipCostValidate d req now = (.err "rule 0 not found", d) := by
  unfold ipCostValidate
  split
  · rfl
  · rename_i rule0x hget
    rw [hg] at hget; cases hget

theorem ipCostValidate_parsed (d : IpCostDetector) (req : Request) (now : Int)
    (rule0 : BanRule) (hg : d.rules.get? 0 = some rule0) :
    ipCostValidate d req now =
      ((costStep d.rules rule0 d.ban_description req.remote_ip
          ((lookupState (ensureState d.ip_ban_states req.remote_ip
            (freshCostState rule0.limit)) req.remote_ip).getD
            (freshCostState rule0.limit))
          (evaluateRequest d.default_cost d.patterns req) now).1,
       { d with
          ip_ban_states :=
            setState (ensureState d.ip_ban_states req.remote_ip
              (freshCostState rule0.limit)) req.remote_ip
              (costStep d.rules rule0 d.ban_description req.remote_ip
                ((lookupState (ensureState d.ip_ban_states req.remote_ip
                  (freshCostState rule0.limit)) req.remote_ip).getD
                  (freshCostState rule0.limit))
                (evaluateRequest d.default_cost d.patterns req) now).2 }) := by
  unfold ipCostValidate
  split
  · rename_i hget; rw [hg] at hget; cases hget
  · rename_i rule0x hget
    rw [hg] at hget
    injection hget with hr
    subst hr
    rfl

theorem uaValidate_no_header (d : UADetector) (req : Request)
    (hh : req.headers.find? (fun p => eqIgnoreCase p.1 "user-agent") = none) :
    uaValidate d req = (.err "User-Agent header not found", d) := by
  unfold uaValidate
  split
  · rfl
  · rename_i hdr hfind
    rw [hh] at hfind; cases hfind

theorem uaValidate_no_match (d : UADetector) (req : Request)
    (hdr : String × String)
    (hh : req.headers.find? (fun p => eqIgnoreCase p.1 "user-agent") = some hdr)
    (hgate : d.patterns.foldl (fun r p => p hdr.2 || r) false = false) :
    uaValidate d req = (.ok none, d) := by
  unfold uaValidate
  split
  · rename_i hfind; rw [hh] at hfind; cases hfind
  · rename_i hdrx hfind
    rw [hh] at hfind
    injection hfind with hx
    subst hx
    dsimp only
    rw [hgate]
    simp

theorem uaValidate_rules_empty (d : UADetector) (req : Request)
    (hdr : String × String)
    (hh : req.headers.find? (fun p => eqIgnoreCase p.1 "user-agent") = some hdr)
    (hgate : d.patterns.foldl (fun r p => p hdr.2 || r) false = true)
    (hg : d.rules.get? 0 = none) :
    uaValidate d req = (.err "rule 0 not found", d) := by
  unfold uaValidate
  split
  · rename_i hfind; rw [hh] at hfind; cases hfind
  · rename_i hdrx hfind
    rw [hh] at hfind
    injection hfind with hx
    subst hx
    dsimp only
    rw [hgate, if_neg (by simp : ¬ ¬ (true = true))]
    split
    · rfl
    · rename_i rule0x hget
      rw [hg] at hget; cases hget

theorem uaValidate_parse_fail (d : UADetector) (req : Request)
    (hdr : String × String) (rule0 : BanRule)
    (hh : req.headers.find? (fun p => eqIgnoreCase p.1 "user-agent") = some hdr)
    (hgate : d.patterns.foldl (fun r p => p hdr.2 || r) false = true)
    (hg : d.rules.get? 0 = some rule0)
    (ht : req.timestamp = none) :
    uaValidate d req =
      (.err "timestamp parse error",
       { d with
          ua_ban_states :=
            ensureState d.ua_ban_states hdr.2 (freshUAState rule0.limit) }) := by
  unfold uaValidate
  split
  · rename_i hfind; rw [hh] at hfind; cases hfind
  · rename_i hdrx hfind
    rw [hh] at hfind
    injection hfind with hx
    subst hx
    dsimp only
    rw [hgate, if_neg (by simp : ¬ ¬ (true = true))]
    split
    · rename_i hget; rw [hg] at hget; cases hget
    · rename_i rule0x hget
      rw [hg] at hget
      injection hget with hr
      subst hr
      split
      · rfl
      · rename_i tx hts; rw [ht] at hts; cases hts

theorem uaValidate_parsed (d : UADetector) (req : Request)
    (hdr : String × String) (rule0 : BanRule) (t : Int)
    (hh : req.headers.find? (fun p => eqIgnoreCase p.1 "user-agent") = some hdr)
    (hgate : d.patterns.foldl (fun r p => p hdr.2 || r) false = true)
    (hg : d.rules.get? 0 = some rule0)
    (ht : req.timestamp = some t) :
    uaValidate d req =
      ((uaStep d.rules rule0 d.ban_description hdr.2
          ((lookupState (ensureState d.ua_ban_states hdr.2
            (freshUAState rule0.limit)) hdr.2).getD (freshUAState rule0.limit)) t).1,
       { d with
          ua_ban_states :=
            setState (ensureState d.ua_ban_states hdr.2
              (freshUAState rule0.limit)) hdr.2
              (uaStep d.rules rule0 d.ban_description hdr.2
                ((lookupState (ensureState d.ua_ban_states hdr.2
                  (freshUAState rule0.limit)) hdr.2).getD
                  (freshUAState rule0.limit)) t).2 }) := by
  unfold uaValidate
  split
  · rename_i hfind; rw [hh] at hfind; cases hfind
  · rename_i hdrx hfind
    rw [hh] at hfind
    injection hfind with hx
    subst hx
    dsimp only
    rw [hgate, if_neg (by simp : ¬ ¬ (true = true))]
    split
    · rename_i hget; rw [hg] at hget; cases hget
    · rename_i rule0x hget
      rw [hg] at hget
      injection hget with hr
      subst hr
      split
      · rename_i hts; rw [ht] at hts; cases hts
      · rename_i tx hts
        rw [ht] at hts
        injection hts with htx
        subst htx
        rfl

theorem freshCost_idxOk (rules : List BanRule) (lim : Nat) :
    costIdxOk rules (freshCostState lim) := by
  intro i hi
  simp [freshCostState] at hi

theorem freshUA_idxOk (rules : List BanRule) (lim : Nat) :
    uaIdxOk rules (freshUAState lim) := by
  intro i ra hi
  simp [freshUAState] at hi

def costMapOk (d : IpCostDetector) : Prop :=
  ∀ k st, lookupState d.ip_ban_states k = some st → costIdxOk d.rules st

def uaMapOk (d : UADetector) : Prop :=
  ∀ k st, lookupState d.ua_ban_states k = some st → uaIdxOk d.rules st

theorem ipCostValidate_preserves_mapOk (d : IpCostDetector) (req : Request)
    (now : Int) (h : costMapOk d) : costMapOk (ipCostValidate d req now).2 := by
  cases hg : d.rules.get? 0 with
  | none =>
    rw [ipCostValidate_rules_empty d req now hg]
    exact h
  | some rule0 =>
    rw [ipCostValidate_parsed d req now rule0 hg]
    intro k st hl
    dsimp only at hl
    by_cases hk : k = req.remote_ip
    · subst hk
      rw [lookupState_set_self, lookupState_ensure_self] at hl
      simp only [Option.map_some'] at hl
      injection hl with hst
      have hst0 : costIdxOk d.rules
          ((lookupState d.ip_ban_states req.remote_ip).getD (freshCostState rule0.limit)) := by
        cases hlo : lookupState d.ip_ban_states req.remote_ip with
        | some s0 => simpa [hlo] using h req.remote_ip s0 hlo
        | none => simpa [hlo] using freshCost_idxOk d.rules rule0.limit
      exact hst ▸ costStep_preserves_idxOk d.rules rule0 d.ban_description
        req.remote_ip _ (evaluateRequest d.default_cost d.patterns req) now hst0
    · rw [lookupState_set_ne _ _ _ _ hk, lookupState_ensure_ne _ _ _ _ hk] at hl
      exact h k st hl

theorem runIpCost_preserves_mapOk (reqs : List (Request × Int)) :
    ∀ d : IpCostDetector, costMapOk d → costMapOk (runIpCost d reqs).2 := by
  induction reqs with
  | nil =>
    intro d h
    simpa [runIpCost] using h
  | cons rn rest ih =>
    intro d h
    rcases rn with ⟨r, now⟩
    have h1 := ipCostValidate_preserves_mapOk d r now h
    rcases hv : ipCostValidate d r now with ⟨res, d1⟩
    rw [hv] at h1
    have hred : (runIpCost d ((r, now) :: rest)).2 = (runIpCost d1 rest).2 := by
      simp [runIpCost, hv]
    rw [hred]
    exact ih d1 h1

theorem uaValidate_preserves_mapOk (d : UADetector) (req : Request)
    (h : uaMapOk d) : uaMapOk (uaValidate d req).2 := by
  cases hh : req.headers.find? (fun p => eqIgnoreCase p.1 "user-agent") with
  | none =>
    rw [uaValidate_no_header d req hh]
    exact h
  | some hdr =>
    cases hgate : d.patterns.foldl (fun r p => p hdr.2 || r) false with
    | false =>
      rw [uaValidate_no_match d req hdr hh hgate]
      exact h
    | true =>
      cases hg : d.rules.get? 0 with
      | none =>
        rw [uaValidate_rules_empty d req hdr hh hgate hg]
        exact h
      | some rule0 =>
        cases ht : req.timestamp with
        | none =>
          rw [uaValidate_parse_fail d req hdr rule0 hh hgate hg ht]
          intro k st hl
          dsimp only at hl
          by_cases hk : k = hdr.2
          · subst hk
            rw [lookupState_ensure_self] at hl
            injection hl with hst
            cases hlo : lookupState d.ua_ban_states hdr.2 with
            | some s0 =>
              rw [hlo] at hst
              exact hst ▸ h hdr.2 s0 hlo
            | none =>
              rw [hlo] at hst
              exact hst ▸ freshUA_idxOk d.rules rule0.limit
          · rw [lookupState_ensure_ne _ _ _ _ hk] at hl
            exact h k st hl
        | some t =>
          rw [uaValidate_parsed d req hdr rule0 t hh hgate hg ht]
          intro k st hl
          dsimp only at hl
          by_cases hk : k = hdr.2
          · subst hk
            rw [lookupState_set_self, lookupState_ensure_self] at hl
            simp only [Option.map_some'] at hl
            injection hl with hst
            have hst0 : uaIdxOk d.rules
                ((lookupState d.ua_ban_states hdr.2).getD (freshUAState rule0.limit)) := by
              cases hlo : lookupState d.ua_ban_states hdr.2 with
              | some s0 => simpa [hlo] using h hdr.2 s0 hlo
              | none => simpa [hlo] using freshUA_idxOk d.rules rule0.limit
            exact hst ▸ uaStep_preserves_idxOk d.rules rule0 d.ban_description
              hdr.2 _ t hst0
          · rw [lookupState_set_ne _ _ _ _ hk, lookupState_ensure_ne _ _ _ _ hk] at hl
            exact h k st hl

theorem runUA_preserves_mapOk (reqs : List Request) :
    ∀ d : UADetector, uaMapOk d → uaMapOk (runUA d reqs).2 := by
  induction reqs with
  | nil =>
    intro d h
    simpa [runUA] using h
  | cons r rest ih =>
    intro d h
    have h1 := uaValidate_preserves_mapOk d r h
    rcases hv : uaValidate d r with ⟨res, d1⟩
    rw [hv] at h1
    have hred : (runUA d (r :: rest)).2 = (runUA d1 rest).2 := by
      simp [runUA, hv]
    rw [hred]
    exact ih d1 h1

/-- C3 amended: while applied_rule remains Some the stored rule index is
monotonically non-decreasing in every detector; in the ua detector each
tier transition stores min(idx+1, last_idx), so its stored index never
exceeds the last rule index; in the ip-counter and ip-cost detectors a
transition stores min(idx+1, last_idx) + 1, so their stored index is
bounded by rules.length = last_idx + 1 (one more than the claim states,
as the counterexample shows) for any rule list and any request sequence. -/
theorem claim_C3_stored_index_bounds :
    (∀ (d : IpCounterDetector) (reqs : List Request),
      counterMapOk d → counterMapOk (runIpCounter d reqs).2) ∧
    (∀ (rules : List BanRule) (rule0 : BanRule) (descr ip : String)
        (st : CounterState) (t : Int) (i j : Nat),
      counterIdxOk rules st → st.applied_rule_idx = some i →
      (counterStep rules rule0 descr ip st t).2.applied_rule_idx = some j →
      i ≤ j) ∧
    (∀ (d : IpCostDetector) (reqs : List (Request × Int)),
      costMapOk d → costMapOk (runIpCost d reqs).2) ∧
    (∀ (rules : List BanRule) (rule0 : BanRule) (descr ip : String)
        (st : CostState) (cost : Nat) (now : Int) (i j : Nat),
      costIdxOk rules st → st.applied_rule_idx = some i →
      (costStep rules rule0 descr ip st cost now).2.applied_rule_idx = some j →
      i ≤ j) ∧
    (∀ (d : UADetector) (reqs : List Request),
      uaMapOk d → uaMapOk (runUA d reqs).2) ∧
    (∀ (rules : List BanRule) (rule0 : BanRule) (descr ua : String)
        (st : UAState) (t : Int) (i j : Nat) (ra ra2 : Int),
      uaIdxOk rules st → st.applied_rule = some (i, ra) →
      (uaStep rules rule0 descr ua st t).2.applied_rule = some (j, ra2) →
      (j = i ∨ j = min (i + 1) (rules.length - 1)) ∧ i ≤ j) := by
  refine ⟨?_, ?_, ?_, ?_, ?_, ?_⟩
  · intro d reqs h
    exact runIpCounter_preserves_mapOk reqs d h
  · intro rules rule0 descr ip st t i j hin hi hj
    exact counterStep_idx_mono rules rule0 descr ip st t i j hin hi hj
  · intro d reqs h
    exact runIpCost_preserves_mapOk reqs d h
  · intro rules rule0 descr ip st cost now i j hin hi hj
    exact costStep_idx_mono rules rule0 descr ip st cost now i j hin hi hj
  · intro d reqs h
    exact runUA_preserves_mapOk reqs d h
  · intro rules rule0 descr ua st t i j ra ra2 hin hi hj
    exact uaStep_idx_clamped rules rule0 descr ua st t i j ra ra2 hin hi hj

/-- C3 witness: the bound instantiated on the six-request escalation run
from a fresh default ip-counter detector. -/
theorem claim_C3_stored_index_bounds_witness :
    counterMapOk (runIpCounter defaultIpCounter
      [ipReq "1.1.1.1" 0, ipReq "1.1.1.1" 0, ipReq "1.1.1.1" 0,
       ipReq "1.1.1.1" 0, ipReq "1.1.1.1" 0, ipReq "1.1.1.1" 0]).2 :=
  claim_C3_stored_index_bounds.1 defaultIpCounter _
    (by intro k st hl; simp [defaultIpCounter, lookupState] at hl)

/-! Err-path analysis: which Err exits exist and what they do to the map. -/

/-- Err-ness of a validator outcome. -/
def VResult.isErr {α : Type} : VResult α → Bool
  | .err _ => true
  | _ => false

theorem rules_get_none (rules : List BanRule) (n : Nat)
    (h : rules.get? n = none) : rules.length ≤ n := by
  induction rules generalizing n with
  | nil => simp
  | cons a l ih =>
    cases n with
    | zero => simp [List.get?] at h
    | succ m =>
      simp only [List.get?] at h
      simpa using ih m h

theorem counterStep_no_err (rules : List BanRule) (rule0 : BanRule)
    (descr ip : String) (st : CounterState) (t : Int)
    (hg : rules.get? 0 = some rule0) :
    (counterStep rules rule0 descr ip st t).1.isErr = false := by
  have hlen : 0 < rules.length := lt_of_rules_get rules 0 rule0 hg
  rcases hs : counterStep rules rule0 descr ip st t with ⟨res, st2⟩
  unfold counterStep at hs
  cases hA : st.applied_rule_idx with
  | none =>
    simp only [hA] at hs
    split at hs
    · cases hs; rfl
    · split at hs
      · cases hs; rfl
      · split at hs
        · cases hs; rfl
        · cases hs; rfl
  | some prev =>
    simp only [hA] at hs
    split at hs
    · cases hs; rfl
    · split at hs
      · rename_i hget
        have := rules_get_none rules _ hget
        have hmin : min (prev + 1) (rules.length - 1) ≤ rules.length - 1 :=
          Nat.min_le_right _ _
        omega
      · rename_i rule hget
        split at hs
        · cases hs; rfl
        · cases hs; rfl

theorem uaIsAboveLimit_no_err (q : CQueue) (byTime : Int) (m : String) :
    uaIsAboveLimit q byTime ≠ .err m := by
  unfold uaIsAboveLimit
  split
  · intro hx; cases hx
  · split
    · intro hx; cases hx
    · intro hx; cases hx

theorem uaStep_no_err (rules : List BanRule) (rule0 : BanRule)
    (descr ua : String) (st : UAState) (t : Int)
    (hg : rules.get? 0 = some rule0) :
    (uaStep rules rule0 descr ua st t).1.isErr = false := by
  have hlen : 0 < rules.length := lt_of_rules_get rules 0 rule0 hg
  rcases hs : uaStep rules rule0 descr ua st t with ⟨res, st2⟩
  unfold uaStep at hs
  split at hs
  · cases hs; rfl
  · cases hA : st.applied_rule with
    | none =>
      simp only [hA] at hs
      split at hs
      · cases hs; rfl
      · rename_i m hm
        exact absurd hm (uaIsAboveLimit_no_err _ _ m)
      · cases hs; rfl
      · cases hs; rfl
    | some ar =>
      simp only [hA] at hs
      split at hs
      · rename_i hget
        have := rules_get_none rules _ hget
        have hmin : min (ar.1 + 1) (rules.length - 1) ≤ rules.length - 1 :=
          Nat.min_le_right _ _
        omega
      · rename_i rule hget
        split at hs
        · cases hs; rfl
        · cases hs; rfl

theorem ipCounterValidate_err_shape (d : IpCounterDetector) (req : Request)
    (res : VResult (Option BanRequest)) (d2 : IpCounterDetector)
    (h : ipCounterValidate d req = (res, d2)) (herr : res.isErr = true) :
    d2 = d ∨
    ∃ rule0, d.rules.get? 0 = some rule0 ∧ req.timestamp = none ∧
      d2 = { d with
              ip_ban_states :=
                ensureState d.ip_ban_states req.remote_ip
                  (freshCounterState rule0.limit) } := by
  cases hg : d.rules.get? 0 with
  | none =>
    rw [ipCounterValidate_rules_empty d req hg] at h
    injection h with h1 h2
    exact Or.inl h2.symm
  | some rule0 =>
    cases ht : req.timestamp with
    | none =>
      rw [ipCounterValidate_parse_fail d req rule0 hg ht] at h
      injection h with h1 h2
      exact Or.inr ⟨rule0, rfl, rfl, h2.symm⟩
    | some t =>
      exfalso
      rw [ipCounterValidate_parsed d req rule0 t hg ht] at h
      injection h with h1 h2
      have hno := counterStep_no_err d.rules rule0 d.ban_description req.remote_ip
        ((lookupState (ensureState d.ip_ban_states req.remote_ip
          (freshCounterState rule0.limit)) req.remote_ip).getD
          (freshCounterState rule0.limit)) t hg
      rw [h1, herr] at hno
      cases hno

theorem uaValidate_err_shape (d : UADetector) (req : Request)
    (res : VResult (Option BanRequest)) (d2 : UADetector)
    (h : uaValidate d req = (res, d2)) (herr : res.isErr = true) :
    d2 = d ∨
    ∃ hdr rule0,
      req.headers.find? (fun p => eqIgnoreCase p.1 "user-agent") = some hdr ∧
      d.rules.get? 0 = some rule0 ∧ req.timestamp = none ∧
      d2 = { d with
              ua_ban_states :=
                ensureState d.ua_ban_states hdr.2 (freshUAState rule0.limit) } := by
  cases hh : req.headers.find? (fun p => eqIgnoreCase p.1 "user-agent") with
  | none =>
    rw [uaValidate_no_header d req hh] at h
    injection h with h1 h2
    exact Or.inl h2.symm
  | some hdr =>
    cases hgate : d.patterns.foldl (fun r p => p hdr.2 || r) false with
    | false =>
      rw [uaValidate_no_match d req hdr hh hgate] at h
      injection h with h1 h2
      exact Or.inl h2.symm
    | true =>
      cases hg : d.rules.get? 0 with
      | none =>
        rw [uaValidate_rules_empty d req hdr hh hgate hg] at h
        injection h with h1 h2
        exact Or.inl h2.symm
      | some rule0 =>
        cases ht : req.timestamp with
        | none =>
          rw [uaValidate_parse_fail d req hdr rule0 hh hgate hg ht] at h
          injection h with h1 h2
          exact Or.inr ⟨hdr, rule0, rfl, rfl, rfl, h2.symm⟩
        | some t =>
          exfalso
          rw [uaValidate_parsed d req hdr rule0 t hh hgate hg ht] at h
          injection h with h1 h2
          have hno := uaStep_no_err d.rules rule0 d.ban_description hdr.2
            ((lookupState (ensureState d.ua_ban_states hdr.2
              (freshUAState rule0.limit)) hdr.2).getD (freshUAState rule0.limit)) t hg
          rw [h1, herr] at hno
          cases hno


/-- Two state maps are behaviorally equal when every key resolves to the
same state after filling the fresh default (what or_insert_with creates). -/
def statesEquivC (fresh : CounterState) (m1 m2 : List (String × CounterState)) : Prop :=
  ∀ k, (lookupState m1 k).getD fresh = (lookupState m2 k).getD fresh

theorem getD_lookup_ensure {σ : Type} (m : List (String × σ)) (k : String) (f : σ) :
    (lookupState (ensureState m k f) k).getD f = (lookupState m k).getD f := by
  rw [lookupState_ensure_self]
  rfl

theorem ensure_equiv_self (f : CounterState) (m : List (String × CounterState))
    (k : String) : statesEquivC f (ensureState m k f) m := by
  intro k2
  by_cases hk : k2 = k
  · subst hk
    rw [getD_lookup_ensure]
  · rw [lookupState_ensure_ne _ _ _ _ hk]

theorem ensure_preserves_equiv (f : CounterState)
    (m1 m2 : List (String × CounterState)) (k : String)
    (h : statesEquivC f m1 m2) :
    statesEquivC f (ensureState m1 k f) (ensureState m2 k f) := by
  intro k2
  by_cases hk : k2 = k
  · subst hk
    rw [getD_lookup_ensure, getD_lookup_ensure]
    exact h k2
  · rw [lookupState_ensure_ne _ _ _ _ hk, lookupState_ensure_ne _ _ _ _ hk]
    exact h k2

theorem set_ensure_preserves_equiv (f : CounterState)
    (m1 m2 : List (String × CounterState)) (k : String) (v : CounterState)
    (h : statesEquivC f m1 m2) :
    statesEquivC f (setState (ensureState m1 k f) k v)
      (setState (ensureState m2 k f) k v) := by
  intro k2
  by_cases hk : k2 = k
  · subst hk
    rw [lookupState_set_self, lookupState_set_self,
      lookupState_ensure_self, lookupState_ensure_self]
    rfl
  · rw [lookupState_set_ne _ _ _ _ hk, lookupState_set_ne _ _ _ _ hk,
      lookupState_ensure_ne _ _ _ _ hk, lookupState_ensure_ne _ _ _ _ hk]
    exact h k2

theorem ipCounterValidate_equiv_step (descr : String) (rules : List BanRule)
    (m1 m2 : List (String × CounterState)) (req : Request)
    (h : ∀ rule0, rules.get? 0 = some rule0 →
      statesEquivC (freshCounterState rule0.limit) m1 m2) :
    (ipCounterValidate ⟨descr, rules, m1⟩ req).1 =
      (ipCounterValidate ⟨descr, rules, m2⟩ req).1 ∧
    ∃ n1 n2,
      (ipCounterValidate ⟨descr, rules, m1⟩ req).2 = ⟨descr, rules, n1⟩ ∧
      (ipCounterValidate ⟨descr, rules, m2⟩ req).2 = ⟨descr, rules, n2⟩ ∧
      ∀ rule0, rules.get? 0 = some rule0 →
        statesEquivC (freshCounterState rule0.limit) n1 n2 := by
  cases hg : rules.get? 0 with
  | none =>
    rw [ipCounterValidate_rules_empty ⟨descr, rules, m1⟩ req hg,
      ipCounterValidate_rules_empty ⟨descr, rules, m2⟩ req hg]
    exact ⟨rfl, m1, m2, rfl, rfl, fun rule0 h0 => nomatch h0⟩
  | some rule0 =>
    cases ht : req.timestamp with
    | none =>
      rw [ipCounterValidate_parse_fail ⟨descr, rules, m1⟩ req rule0 hg ht,
        ipCounterValidate_parse_fail ⟨descr, rules, m2⟩ req rule0 hg ht]
      refine ⟨rfl, _, _, rfl, rfl, ?_⟩
      intro rule0x h0
      injection h0 with hr
      subst hr
      exact ensure_preserves_equiv _ _ _ _ (h rule0 hg)
    | some t =>
      have hst :
          (lookupState (ensureState m1 req.remote_ip
            (freshCounterState rule0.limit)) req.remote_ip).getD
            (freshCounterState rule0.limit) =
          (lookupState (ensureState m2 req.remote_ip
            (freshCounterState rule0.limit)) req.remote_ip).getD
            (freshCounterState rule0.limit) := by
        rw [getD_lookup_ensure, getD_lookup_ensure]
        exact h rule0 hg req.remote_ip
      rw [ipCounterValidate_parsed ⟨descr, rules, m1⟩ req rule0 t hg ht,
        ipCounterValidate_parsed ⟨descr, rules, m2⟩ req rule0 t hg ht]
      dsimp only
      rw [hst]
      refine ⟨rfl, _, _, rfl, rfl, ?_⟩
      intro rule0x h0
      injection h0 with hr
      subst hr
      exact set_ensure_preserves_equiv _ _ _ _ _ (h rule0 hg)

theorem runIpCounter_equiv (descr : String) (rules : List BanRule)
    (reqs : List Request) :
    ∀ (m1 m2 : List (String × CounterState)),
      (∀ rule0, rules.get? 0 = some rule0 →
        statesEquivC (freshCounterState rule0.limit) m1 m2) →
      (runIpCounter ⟨descr, rules, m1⟩ reqs).1 =
        (runIpCounter ⟨descr, rules, m2⟩ reqs).1 := by
  induction reqs with
  | nil => intro m1 m2 h; rfl
  | cons r rest ih =>
    intro m1 m2 h
    obtain ⟨hres, n1, n2, hd1, hd2, hequiv⟩ :=
      ipCounterValidate_equiv_step descr rules m1 m2 r h
    rcases hv1 : ipCounterValidate ⟨descr, rules, m1⟩ r with ⟨res1, d1⟩
    rcases hv2 : ipCounterValidate ⟨descr, rules, m2⟩ r with ⟨res2, d2⟩
    rw [hv1, hv2] at hres
    rw [hv1] at hd1
    rw [hv2] at hd2
    have hres2 : res1 = res2 := by simpa using hres
    have hd12 : d1 = ⟨descr, rules, n1⟩ := by simpa using hd1
    have hd22 : d2 = ⟨descr, rules, n2⟩ := by simpa using hd2
    have e1 : (runIpCounter ⟨descr, rules, m1⟩ (r :: rest)).1 =
        res1 :: (runIpCounter d1 rest).1 := by
      simp [runIpCounter, hv1]
    have e2 : (runIpCounter ⟨descr, rules, m2⟩ (r :: rest)).1 =
        res2 :: (runIpCounter d2 rest).1 := by
      simp [runIpCounter, hv2]
    rw [e1, e2, hres2, hd12, hd22]
    exact congrArg (List.cons res2) (ih n1 n2 hequiv)


theorem costStep_no_err (rules : List BanRule) (rule0 : BanRule)
    (descr ip : String) (st : CostState) (cost : Nat) (now : Int)
    (hg : rules.get? 0 = some rule0) :
    (costStep rules rule0 descr ip st cost now).1.isErr = false := by
  have hlen : 0 < rules.length := lt_of_rules_get rules 0 rule0 hg
  rcases hs : costStep rules rule0 descr ip st cost now with ⟨res, st2⟩
  unfold costStep at hs
  split at hs
  · cases hs; rfl
  · cases hA : st.applied_rule_idx with
    | none =>
      simp only [hA] at hs
      split at hs
      · cases hs; rfl
      · cases hs; rfl
    | some idx =>
      simp only [hA] at hs
      split at hs
      · rename_i hget
        have := rules_get_none rules _ hget
        have hmin : min (idx + 1) (rules.length - 1) ≤ rules.length - 1 :=
          Nat.min_le_right _ _
        omega
      · rename_i rule hget
        split at hs
        · cases hs; rfl
        · cases hs; rfl

theorem ipCostValidate_err_shape (d : IpCostDetector) (req : Request) (now : Int)
    (res : VResult (Option BanRequest)) (d2 : IpCostDetector)
    (h : ipCostValidate d req now = (res, d2)) (herr : res.isErr = true) :
    d2 = d := by
  cases hg : d.rules.get? 0 with
  | none =>
    rw [ipCostValidate_rules_empty d req now hg] at h
    injection h with h1 h2
    exact h2.symm
  | some rule0 =>
    exfalso
    rw [ipCostValidate_parsed d req now rule0 hg] at h
    injection h with h1 h2
    have hno := costStep_no_err d.rules rule0 d.ban_description req.remote_ip
      ((lookupState (ensureState d.ip_ban_states req.remote_ip
        (freshCostState rule0.limit)) req.remote_ip).getD
        (freshCostState rule0.limit))
      (evaluateRequest d.default_cost d.patterns req) now hg
    rw [h1, herr] at hno
    cases hno

/-- Behavioral equality of state maps up to the fresh default entry that
or_insert_with would create (generic over the per-target state type). -/
def statesEquiv {σ : Type} (fresh : σ) (m1 m2 : List (String × σ)) : Prop :=
  ∀ k, (lookupState m1 k).getD fresh = (lookupState m2 k).getD fresh

theorem statesEquiv_ensure_self {σ : Type} (f : σ) (m : List (String × σ))
    (k : String) : statesEquiv f (ensureState m k f) m := by
  intro k2
  by_cases hk : k2 = k
  · subst hk
    rw [getD_lookup_ensure]
  · rw [lookupState_ensure_ne _ _ _ _ hk]

theorem statesEquiv_ensure {σ : Type} (f : σ) (m1 m2 : List (String × σ))
    (k : String) (h : statesEquiv f m1 m2) :
    statesEquiv f (ensureState m1 k f) (ensureState m2 k f) := by
  intro k2
  by_cases hk : k2 = k
  · subst hk
    rw [getD_lookup_ensure, getD_lookup_ensure]
    exact h k2
  · rw [lookupState_ensure_ne _ _ _ _ hk, lookupState_ensure_ne _ _ _ _ hk]
    exact h k2

theorem statesEquiv_set_ensure {σ : Type} (f : σ) (m1 m2 : List (String × σ))
    (k : String) (v : σ) (h : statesEquiv f m1 m2) :
    statesEquiv f (setState (ensureState m1 k f) k v)
      (setState (ensureState m2 k f) k v) := by
  intro k2
  by_cases hk : k2 = k
  · subst hk
    rw [lookupState_set_self, lookupState_set_self,
      lookupState_ensure_self, lookupState_ensure_self]
    rfl
  · rw [lookupState_set_ne _ _ _ _ hk, lookupState_set_ne _ _ _ _ hk,
      lookupState_ensure_ne _ _ _ _ hk, lookupState_ensure_ne _ _ _ _ hk]
    exact h k2

theorem uaValidate_equiv_step (descr : String) (rules : List BanRule)
    (pats : List (String → Bool)) (m1 m2 : List (String × UAState)) (req : Request)
    (h : ∀ rule0, rules.get? 0 = some rule0 →
      statesEquiv (freshUAState rule0.limit) m1 m2) :
    (uaValidate ⟨descr, rules, pats, m1⟩ req).1 =
      (uaValidate ⟨descr, rules, pats, m2⟩ req).1 ∧
    ∃ n1 n2,
      (uaValidate ⟨descr, rules, pats, m1⟩ req).2 = ⟨descr, rules, pats, n1⟩ ∧
      (uaValidate ⟨descr, rules, pats, m2⟩ req).2 = ⟨descr, rules, pats, n2⟩ ∧
      ∀ rule0, rules.get? 0 = some rule0 →
        statesEquiv (freshUAState rule0.limit) n1 n2 := by
  cases hh : req.headers.find? (fun p => eqIgnoreCase p.1 "user-agent") with
  | none =>
    rw [uaValidate_no_header ⟨descr, rules, pats, m1⟩ req hh,
      uaValidate_no_header ⟨descr, rules, pats, m2⟩ req hh]
    exact ⟨rfl, m1, m2, rfl, rfl, h⟩
  | some hdr =>
    cases hgate : pats.foldl (fun r p => p hdr.2 || r) false with
    | false =>
      rw [uaValidate_no_match ⟨descr, rules, pats, m1⟩ req hdr hh hgate,
        uaValidate_no_match ⟨descr, rules, pats, m2⟩ req hdr hh hgate]
      exact ⟨rfl, m1, m2, rfl, rfl, h⟩
    | true =>
      cases hg : rules.get? 0 with
      | none =>
        rw [uaValidate_rules_empty ⟨descr, rules, pats, m1⟩ req hdr hh hgate hg,
          uaValidate_rules_empty ⟨descr, rules, pats, m2⟩ req hdr hh hgate hg]
        exact ⟨rfl, m1, m2, rfl, rfl, fun rule0 h0 => nomatch h0⟩
      | some rule0 =>
        cases ht : req.timestamp with
        | none =>
          rw [uaValidate_parse_fail ⟨descr, rules, pats, m1⟩ req hdr rule0 hh hgate hg ht,
            uaValidate_parse_fail ⟨descr, rules, pats, m2⟩ req hdr rule0 hh hgate hg ht]
          refine ⟨rfl, _, _, rfl, rfl, ?_⟩
          intro rule0x h0
          injection h0 with hr
          subst hr
          exact statesEquiv_ensure _ _ _ _ (h rule0 hg)
        | some t =>
          have hst :
              (lookupState (ensureState m1 hdr.2
                (freshUAState rule0.limit)) hdr.2).getD (freshUAState rule0.limit) =
              (lookupState (ensureState m2 hdr.2
                (freshUAState rule0.limit)) hdr.2).getD (freshUAState rule0.limit) := by
            rw [getD_lookup_ensure, getD_lookup_ensure]
            exact h rule0 hg hdr.2
          rw [uaValidate_parsed ⟨descr, rules, pats, m1⟩ req hdr rule0 t hh hgate hg ht,
            uaValidate_parsed ⟨descr, rules, pats, m2⟩ req hdr rule0 t hh hgate hg ht]
          dsimp only
          rw [hst]
          refine ⟨rfl, _, _, rfl, rfl, ?_⟩
          intro rule0x h0
          injection h0 with hr
          subst hr
          exact statesEquiv_set_ensure _ _ _ _ _ (h rule0 hg)

theorem runUA_equiv (descr : String) (rules : List BanRule)
    (pats : List (String → Bool)) (reqs : List Request) :
    ∀ (m1 m2 : List (String × UAState)),
      (∀ rule0, rules.get? 0 = some rule0 →
        statesEquiv (freshUAState rule0.limit) m1 m2) →
      (runUA ⟨descr, rules, pats, m1⟩ reqs).1 =
        (runUA ⟨descr, rules, pats, m2⟩ reqs).1 := by
  induction reqs with
  | nil => intro m1 m2 h; rfl
  | cons r rest ih =>
    intro m1 m2 h
    obtain ⟨hres, n1, n2, hd1, hd2, hequiv⟩ :=
      uaValidate_equiv_step descr rules pats m1 m2 r h
    rcases hv1 : uaValidate ⟨descr, rules, pats, m1⟩ r with ⟨res1, d1⟩
    rcases hv2 : uaValidate ⟨descr, rules, pats, m2⟩ r with ⟨res2, d2⟩
    rw [hv1, hv2] at hres
    rw [hv1] at hd1
    rw [hv2] at hd2
    have hres2 : res1 = res2 := by simpa using hres
    have hd12 : d1 = ⟨descr, rules, pats, n1⟩ := by simpa using hd1
    have hd22 : d2 = ⟨descr, rules, pats, n2⟩ := by simpa using hd2
    have e1 : (runUA ⟨descr, rules, pats, m1⟩ (r :: rest)).1 =
        res1 :: (runUA d1 rest).1 := by
      simp [runUA, hv1]
    have e2 : (runUA ⟨descr, rules, pats, m2⟩ (r :: rest)).1 =
        res2 :: (runUA d2 rest).1 := by
      simp [runUA, hv2]
    rw [e1, e2, hres2, hd12, hd22]
    exact congrArg (List.cons res2) (ih n1 n2 hequiv)

/-- C7 amended: when any of the three detectors returns Err, every
per-target state that existed before the call is unchanged: the map
either is untouched (missing User-Agent header, empty rule list; the
ip-cost detector has only the empty-rule-list Err and never changes its
map on Err) or, on an unparsable timestamp in the ip-counter and ua
detectors, gains at most the fresh default entry for the request target
that was created before the parse; because a later call would create the
identical fresh entry lazily, every later request sequence on each
detector produces exactly the outputs it would have produced had the
erroring request never been observed. -/
theorem claim_C7_err_isolated :
    (∀ (d : IpCounterDetector) (req : Request) (res : VResult (Option BanRequest))
        (d2 : IpCounterDetector),
      ipCounterValidate d req = (res, d2) → res.isErr = true →
      d2 = d ∨
      ∃ rule0, d.rules.get? 0 = some rule0 ∧ req.timestamp = none ∧
        d2 = { d with
                ip_ban_states :=
                  ensureState d.ip_ban_states req.remote_ip
                    (freshCounterState rule0.limit) }) ∧
    (∀ (d : IpCounterDetector) (req : Request) (res : VResult (Option BanRequest))
        (d2 : IpCounterDetector) (reqs : List Request),
      ipCounterValidate d req = (res, d2) → res.isErr = true →
      (runIpCounter d2 reqs).1 = (runIpCounter d reqs).1) ∧
    (∀ (d : UADetector) (req : Request) (res : VResult (Option BanRequest))
        (d2 : UADetector),
      uaValidate d req = (res, d2) → res.isErr = true →
      d2 = d ∨
      ∃ hdr rule0,
        req.headers.find? (fun p => eqIgnoreCase p.1 "user-agent") = some hdr ∧
        d.rules.get? 0 = some rule0 ∧ req.timestamp = none ∧
        d2 = { d with
                ua_ban_states :=
                  ensureState d.ua_ban_states hdr.2 (freshUAState rule0.limit) }) ∧
    (∀ (d : UADetector) (req : Request) (res : VResult (Option BanRequest))
        (d2 : UADetector) (reqs : List Request),
      uaValidate d req = (res, d2) → res.isErr = true →
      (runUA d2 reqs).1 = (runUA d reqs).1) ∧
    (∀ (d : IpCostDetector) (req : Request) (now : Int)
        (res : VResult (Option BanRequest)) (d2 : IpCostDetector),
      ipCostValidate d req now = (res, d2) → res.isErr = true → d2 = d) ∧
    (∀ (d : IpCostDetector) (req : Request) (now : Int)
        (res : VResult (Option BanRequest)) (d2 : IpCostDetector)
        (reqs : List (Request × Int)),
      ipCostValidate d req now = (res, d2) → res.isErr = true →
      (runIpCost d2 reqs).1 = (runIpCost d reqs).1) := by
  refine ⟨ipCounterValidate_err_shape, ?_, uaValidate_err_shape, ?_,
    ipCostValidate_err_shape, ?_⟩
  · intro d req res d2 reqs h herr
    rcases ipCounterValidate_err_shape d req res d2 h herr with hEq | ⟨rule0, hg, ht, hshape⟩
    · rw [hEq]
    · rcases d with ⟨descr, rules, m⟩
      subst hshape
      apply runIpCounter_equiv
      intro rule0x h0
      rw [hg] at h0
      injection h0 with hr
      subst hr
      exact ensure_equiv_self _ m req.remote_ip
  · intro d req res d2 reqs h herr
    rcases uaValidate_err_shape d req res d2 h herr with hEq | ⟨hdr, rule0, hh, hg, ht, hshape⟩
    · rw [hEq]
    · rcases d with ⟨descr, rules, pats, m⟩
      subst hshape
      apply runUA_equiv
      intro rule0x h0
      rw [hg] at h0
      injection h0 with hr
      subst hr
      exact statesEquiv_ensure_self _ m hdr.2
  · intro d req now res d2 reqs h herr
    rw [ipCostValidate_err_shape d req now res d2 h herr]

/-- C7 witness: after the erroring unparsable-timestamp request, a
subsequent request from the same ip yields the same output as if the
erroring request had never arrived. -/
theorem claim_C7_err_isolated_witness :
    (runIpCounter (ipCounterValidate defaultIpCounter (badTsReq "1.1.1.1")).2
      [ipReq "1.1.1.1" 0]).1 =
      (runIpCounter defaultIpCounter [ipReq "1.1.1.1" 0]).1 :=
  claim_C7_err_isolated.2.1 defaultIpCounter (badTsReq "1.1.1.1") _ _
    [ipReq "1.1.1.1" 0] rfl (by decide)

end Firewall
